import Mathlib

/-!
Verification of the polydebate orchestration core (backend/services/debate.py)
against its natural-language specification.

Shallow embedding conventions:
* Python numeric values (which are floats carrying small decimal quantities in
  the source) are modelled as exact rationals `ℚ`; Python's `round(x, n)`
  (round-half-to-even, as CPython defines it) is modelled by `roundHalfEven`.
* Python dicts are modelled as association lists with distinct keys, preserving
  insertion order; `d[k] = v` is `dictInsert` (update in place keeps position,
  new keys are appended), mirroring CPython dict semantics.
* The effectful debate run (`DebateService.run_debate`) is modelled as a pure
  state-transformer over a `RunState` carrying the persisted message list, the
  emitted SSE event list, and the ordered trace of collaborator calls (model call,
  speech synthesis, persistence).  Collaborator outcomes (model responses,
  audio results, persistence success) are supplied by an environment `RunEnv`.
* Timestamps and UUID message ids are omitted: they are wall-clock /randomness
  artefacts that no verified claim mentions.
-/

/-- Python's `round` to an integer: round half to even (banker's rounding). -/
def roundHalfEven (q : ℚ) : ℤ :=
  if q - (⌊q⌋ : ℚ) < 1/2 then ⌊q⌋
  else if 1/2 < q - (⌊q⌋ : ℚ) then ⌊q⌋ + 1
  else if ⌊q⌋ % 2 = 0 then ⌊q⌋ else ⌊q⌋ + 1

/-- Python's `round(x, 2)`. -/
def rnd2 (q : ℚ) : ℚ := (roundHalfEven (q * 100) : ℚ) / 100

/-- Python's `round(x, 1)` (also the rounding done by the `"%.1f"` format). -/
def rnd1 (q : ℚ) : ℚ := (roundHalfEven (q * 10) : ℚ) / 10

/-- Python's `round(x)` to an integer, as a rational. -/
def rnd0 (q : ℚ) : ℚ := (roundHalfEven q : ℚ)

/-- List `small` occurs as a leading segment of `big`. -/
def startsWithL {α : Type} [DecidableEq α] : List α → List α → Bool
  | _, [] => true
  | [], _ :: _ => false
  | a :: as, b :: bs => decide (a = b) && startsWithL as bs

/-- List `seg` occurs as a contiguous segment somewhere inside `l`. -/
def hasSegL {α : Type} [DecidableEq α] : List α → List α → Bool
  | [], seg => seg.isEmpty
  | a :: tl, seg => startsWithL (a :: tl) seg || hasSegL tl seg

/-- Python's `s.lower()` (ASCII case folding, which is all the source relies
on for outcome names). -/
def strLower (s : String) : String := String.mk (s.data.map Char.toLower)

/-- Substring test: Python's `needle in hay` for strings. -/
def containsSub (hay needle : String) : Bool := hasSegL hay.data needle.data

/-- Python dict assignment `d[k] = v` on an insertion-ordered association
list: an existing key keeps its position and gets the new value, a new key is
appended at the end. -/
def dictInsert {α : Type} (d : List (String × α)) (k : String) (v : α) :
    List (String × α) :=
  if d.any (fun kv => kv.1 == k) then
    d.map (fun kv => if kv.1 == k then (kv.1, v) else kv)
  else d ++ [(k, v)]

/-- Python dict lookup `d.get(k)`. -/
def dlookup {α : Type} (d : List (String × α)) (k : String) : Option α :=
  (d.find? (fun kv => kv.1 == k)).map (fun kv => kv.2)

/-- Python dict lookup with default, `d.get(k, dflt)`. -/
def dlookupD {α : Type} (d : List (String × α)) (k : String) (dflt : α) : α :=
  (dlookup d k).getD dflt

/-- Python's `k in d` for dicts. -/
def dhasKey {α : Type} (d : List (String × α)) (k : String) : Bool :=
  d.any (fun kv => kv.1 == k)

/-- Python's `max(d.items(), key=lambda x: x[1])`: first entry with maximal
value (CPython's `max` keeps the earliest maximal element). -/
def maxByVal (d : List (String × ℚ)) : Option (String × ℚ) :=
  match d with
  | [] => none
  | kv :: rest => some (rest.foldl (fun acc y => if acc.2 < y.2 then y else acc) kv)

/-!
## Outcome data and the outcome filter (`filter_outcomes_for_ai`)

An outcome dict field that may be absent, present-but-unparseable, or a
number is modelled as `Option (Option ℚ)`: `none` = field absent,
`some none` = present but `float(...)` raises, `some (some q)` = parses to
`q`.  `price_change_24h` is compared with `== 0` directly (no parsing) in the
source, so it is modelled as `Option ℚ`; `price` defaults to `0` when absent
(`outcome.get('price', 0)`), so it is a plain `ℚ`.
-/

structure Outcome where
  name : String
  volume : Option (Option ℚ)
  shares : Option (Option ℚ)
  price_change_24h : Option ℚ
  price : ℚ
deriving DecidableEq

/-- One outcome's fate in `filter_outcomes_for_ai` (backend/services/debate.py,
lines 34-103), branch for branch. -/
def keepOutcome (o : Outcome) : Bool :=
  let nl := strLower o.name
  if containsSub nl "placeholder" then false
  else
    let volOk := match o.volume with
      | none => true
      | some none => false
      | some (some v) => !(v == 0)
    if !volOk then false
    else
      let sharesOk := match o.shares with
        | none => true
        | some none => false
        | some (some v) => !(v == 0)
      if !sharesOk then false
      else
        let pcOk := match o.price_change_24h with
          | none => true
          | some v => !(v == 0)
        if !pcOk then false
        else
          if nl == "other" && o.price == 1/2 then
            match o.shares with
            | none => false
            | some none => false
            | some (some v) => !(v == 0)
          else true

/-- The outcome filter: keeps exactly the outcomes passing every check
(backend/services/debate.py, lines 17-111).  Logging is a no-op here. -/
def filter_outcomes_for_ai (outcomes : List Outcome) : List Outcome :=
  outcomes.filter keepOutcome

/-!
## Prediction renormalization (`run_debate`, lines 371-387)
-/

/-- The renormalization block of `run_debate` (lines 371-384): if the mapping
is non-empty and its sum positive, rescale each value to `v * 100 / total`,
round to 2 decimals, and add the residual to the (first) largest entry -- but
only when `abs(diff) > 0.01`. -/
def renormalize (fp : List (String × ℚ)) : List (String × ℚ) :=
  if fp.isEmpty then fp
  else
    let total := (fp.map (fun kv => kv.2)).sum
    if 0 < total then
      let normalized := fp.map (fun kv => (kv.1, rnd2 (kv.2 * 100 / total)))
      let currentSum := (normalized.map (fun kv => kv.2)).sum
      let diff := rnd2 (100 - currentSum)
      if 1/100 < |diff| then
        match maxByVal normalized with
        | some mx =>
            dictInsert normalized mx.1 (rnd2 (dlookupD normalized mx.1 0 + diff))
        | none => normalized
      else normalized
    else fp

/-- Prediction validation and normalization (`run_debate`, lines 322-392):
drop labels containing "placeholder", case-insensitively match the rest
against the valid outcome names (renaming matches to the canonical name,
keeping unmatched labels), merge `{**matched, **unmatched}`, renormalize, and
finally re-round every value to 2 decimals (`round(float(v), 2)`).
`validNames` plays the role of `valid_outcome_names` (iterated in list order;
the source uses a set built from the filtered outcome list). -/
def process_predictions (raw : List (String × ℚ)) (validNames : List String) :
    List (String × ℚ) :=
  if raw.isEmpty then []
  else
    let lowerMap : List (String × String) :=
      validNames.foldl (fun acc n => dictInsert acc (strLower n) n) []
    let filtered := raw.filter (fun kv => !(containsSub (strLower kv.1) "placeholder"))
    let step := filtered.foldl
      (fun (acc : List (String × ℚ) × List (String × ℚ)) kv =>
        if validNames.contains kv.1 then (dictInsert acc.1 kv.1 kv.2, acc.2)
        else match dlookup lowerMap (strLower kv.1) with
          | some canonical => (dictInsert acc.1 canonical kv.2, acc.2)
          | none => (acc.1, dictInsert acc.2 kv.1 kv.2))
      ([], [])
    let finalPreds := step.2.foldl (fun acc kv => dictInsert acc kv.1 kv.2) step.1
    (renormalize finalPreds).map (fun kv => (kv.1, rnd2 kv.2))

/-- Evaluation rule for `roundHalfEven` when the fractional part is below
one half. -/
theorem roundHalfEven_of_lt_half (q : ℚ) (n : ℤ) (h1 : (n : ℚ) ≤ q)
    (h2 : q - (n : ℚ) < 1/2) : roundHalfEven q = n := by
  have hf : ⌊q⌋ = n := by
    rw [Int.floor_eq_iff]
    refine ⟨h1, ?_⟩
    linarith
  unfold roundHalfEven
  rw [hf, if_pos h2]

/-- Evaluation rule for `roundHalfEven` when the fractional part is above
one half. -/
theorem roundHalfEven_of_half_lt (q : ℚ) (n : ℤ) (h1 : 1/2 < q - (n : ℚ))
    (h2 : q < (n : ℚ) + 1) : roundHalfEven q = n + 1 := by
  have hf : ⌊q⌋ = n := by
    rw [Int.floor_eq_iff]
    constructor
    · linarith
    · linarith
  unfold roundHalfEven
  rw [hf, if_neg (by linarith), if_pos h1]

/-- C1: for the positive-sum raw mapping `{a: 1, b: 1, c: 1}` the
renormalization outputs three values of 33.33 summing to 99.99, not 100.00:
the residual 0.01 is never applied because the adjustment requires
`abs(diff) > 0.01`.  This contradicts both the claim and the code's own
comment ("Adjust for rounding errors to ensure sum equals exactly 100.00"). -/
theorem c1_normalized_sum_not_100 :
    ((renormalize [("a", 1), ("b", 1), ("c", 1)]).map (fun kv => kv.2)).sum
        = 9999/100
      ∧ ((renormalize [("a", 1), ("b", 1), ("c", 1)]).map (fun kv => kv.2)).sum
        ≠ 100 := by
  have e1 : rnd2 ((1 : ℚ) * 100 / (1 + (1 + (1 + 0)))) = 3333/100 := by
    unfold rnd2
    rw [show ((1 : ℚ) * 100 / (1 + (1 + (1 + 0))) * 100) = 10000/3 by norm_num,
      roundHalfEven_of_lt_half (10000/3) 3333 (by norm_num) (by norm_num)]
    norm_num
  have e2 : rnd2 ((100 : ℚ) - (3333/100 + (3333/100 + (3333/100 + 0)))) = 1/100 := by
    unfold rnd2
    rw [show ((100 : ℚ) - (3333/100 + (3333/100 + (3333/100 + 0)))) * 100 = 1 by
      ring, roundHalfEven_of_lt_half 1 1 (by norm_num) (by norm_num)]
    norm_num
  have habs : ¬ ((1 : ℚ)/100 < |(1 : ℚ)/100|) := by
    rw [abs_of_pos (by norm_num)]
    exact lt_irrefl _
  have hsum : (renormalize [("a", 1), ("b", 1), ("c", 1)]).map (fun kv => kv.2)
      = [3333/100, 3333/100, 3333/100] := by
    unfold renormalize
    simp only [List.isEmpty_cons, List.map_cons, List.map_nil, List.sum_cons,
      List.sum_nil, Bool.false_eq_true, if_false]
    rw [if_pos (by norm_num : (0 : ℚ) < 1 + (1 + (1 + 0)))]
    simp only [e1, e2]
    rw [if_neg habs]
    simp
  rw [hsum]
  norm_num

/-!
## The debate run (`DebateService.run_debate`, lines 196-500)

The effectful run is modelled as a pure state transformer.  `RunState` carries
the in-memory `debate.messages` list, the SSE event queue contents, and the
ordered trace of collaborator calls.  `RunEnv` supplies each collaborator outcome:
the model response for round `r` / participant index `i`, the audio-synthesis
outcome, and whether the per-message `debate.save()` succeeds.  Per-round and
final `save()` failures are log-only in the source and do not branch, so they
appear in the trace but carry no success flag.
-/

structure DebateModel where
  model_id : String
  model_name : String
  provider : String
deriving DecidableEq

structure DebateCfg where
  debate_id : String
  models : List DebateModel
  outcomes : List Outcome
  rounds : ℕ
deriving DecidableEq

/-- Default participant for `List.getD`; never selected under the index
bounds used in the theorems. -/
def dModel : DebateModel := { model_id := "", model_name := "", provider := "" }

/-- Outcome of one `openrouter_service.generate_response` call, as classified
by the validation in `run_debate` lines 309-318: a well-formed response with
a content string and a raw prediction mapping, a `None` response, a non-dict
response, a dict missing the content key, or an exception raised by the call
itself. -/
inductive ModelResp where
  | ok (content : String) (predictions : List (String × ℚ))
  | isNone
  | notDict (typeName : String)
  | noContent
  | raised (excName excMsg : String)
deriving DecidableEq

def ModelResp.isOk : ModelResp → Bool
  | .ok _ _ => true
  | _ => false

/-- Exception type name and message for a failed turn: the validation raises
`Exception(...)` with the messages of lines 312/315/318, and a model-call
exception propagates as itself.  (The quotes around the word content in the
source message are elided.) -/
def respExc (model_id : String) : ModelResp → String × String
  | .ok _ _ => ("", "")
  | .isNone => ("Exception", "Response is None from " ++ model_id)
  | .notDict tn =>
      ("Exception", "Invalid response type from " ++ model_id
        ++ ": expected dict, got " ++ tn)
  | .noContent =>
      ("Exception", "Invalid response structure from " ++ model_id
        ++ ": missing content key")
  | .raised n m => (n, m)

/-- Outcome of one `elevenlabs_service.generate_speech` call (lines 406-424):
a result with a truthy audio url and a duration, a result carrying an error
field, a result with neither, or a raised exception. -/
inductive AudioOutcome where
  | ok (url : String) (dur : ℚ)
  | errField (msg : String)
  | neither
  | raised (msg : String)
deriving DecidableEq

structure TurnEnv where
  resp : ModelResp
  audio : AudioOutcome
  saveOk : Bool
deriving DecidableEq

structure RunEnv where
  startSaveOk : Bool
  turn : ℕ → ℕ → TurnEnv

/-- A persisted debate message (models/message.py); `message_id` (a UUID) and
the timestamp are omitted. -/
structure Message where
  round : ℕ
  sequence : ℕ
  model_id : String
  model_name : String
  message_type : String
  text : String
  predictions : List (String × ℚ)
  audio_url : Option String
  audio_duration : Option ℚ
deriving DecidableEq

/-- SSE events emitted by `run_debate` (timestamps omitted). -/
inductive Event where
  | debate_started (debate_id status : String)
  | model_thinking (model_id model_name : String) (round : ℕ)
  | message (m : Message)
  | error (model_id model_name : Option String) (err msg : String)
  | debate_complete (debate_id status : String) (total_messages : ℕ)
deriving DecidableEq

/-- External calls made by `run_debate`, in program order.  `llm` records the
names of the filtered outcomes passed to the model collaborator. -/
inductive Call where
  | saveStart
  | saveRound (r : ℕ)
  | llm (r i : ℕ) (outcomeNames : List String)
  | tts (r i : ℕ)
  | saveMessage (r i : ℕ)
  | saveComplete
  | fetchResults
deriving DecidableEq

structure RunState where
  messages : List Message
  events : List Event
  calls : List Call
deriving DecidableEq

/-- The error string of a turn-failure error event (line 463). -/
def turnErrStr (model_id : String) (resp : ModelResp) : String :=
  (respExc model_id resp).1 ++ ": " ++ (respExc model_id resp).2

/-- The message string of a turn-failure error event (line 464). -/
def turnErrMsg (model_name model_id : String) (resp : ModelResp) : String :=
  "Error from " ++ model_name ++ ": " ++ (respExc model_id resp).2

/-- The error event emitted when a participant turn fails (lines 460-470). -/
def turnErrorEvent (m : DebateModel) (resp : ModelResp) : Event :=
  .error (some m.model_id) (some m.model_name)
    (turnErrStr m.model_id resp) (turnErrMsg m.model_name m.model_id resp)

/-- The error event emitted when the per-message save fails (lines 436-446);
the exception text is abstracted. -/
def saveFailEvent (m : DebateModel) : Event :=
  .error (some m.model_id) (some m.model_name)
    "Database save failed: DatabaseError"
    ("Failed to save message from " ++ m.model_name)

/-- Attach the audio result to a message (lines 416-424): only a truthy
`audio_url` sets the fields; an error-carrying result, an empty result, or an
exception leaves the message without audio. -/
def applyAudio (a : AudioOutcome) (m : Message) : Message :=
  match a with
  | .ok url dur => { m with audio_url := some url, audio_duration := some dur }
  | _ => m

/-- Names of the outcomes surviving the filter, as passed to the model call
(line 286) and to prediction validation (line 327). -/
def filteredNamesOf (cfg : DebateCfg) : List String :=
  (filter_outcomes_for_ai cfg.outcomes).map (fun o => o.name)

/-- Message kind for round `r` of `rounds` (lines 250-256): the first-round
branch is checked before the last-round branch. -/
def roundKind (r rounds : ℕ) : String :=
  if r = 1 then "initial" else if r = rounds then "final" else "debate"

/-- The message constructed by a successful turn (lines 395-424): fresh
sequence number `len(existing messages) + 1`, normalized predictions, and the
audio result applied on top of initially-absent audio fields. -/
def turnMessage (cfg : DebateCfg) (te : TurnEnv) (r : ℕ) (mtype : String)
    (m : DebateModel) (len : ℕ) (c : String) (p : List (String × ℚ)) :
    Message :=
  applyAudio te.audio
    { round := r, sequence := len + 1,
      model_id := m.model_id, model_name := m.model_name,
      message_type := mtype, text := c,
      predictions := process_predictions p (filteredNamesOf cfg),
      audio_url := none, audio_duration := none }

/-- One participant turn (lines 259-472): emit `model_thinking`, call the
model with the filtered outcomes; on a valid response, normalize predictions,
build the message with sequence `len(messages)+1`, call speech synthesis,
append the message, persist, and emit either the `message` event or (on save
failure) an error event; on an invalid response or model exception, emit the
turn error event and continue. -/
def runTurn (cfg : DebateCfg) (te : TurnEnv) (r : ℕ) (mtype : String) (i : ℕ)
    (m : DebateModel) (st : RunState) : RunState :=
  match te.resp with
  | .ok content rawPreds =>
    let msg := turnMessage cfg te r mtype m st.messages.length content rawPreds
    { messages := st.messages ++ [msg],
      events := st.events ++ [.model_thinking m.model_id m.model_name r]
        ++ (if te.saveOk then [.message msg] else [saveFailEvent m]),
      calls := st.calls
        ++ [.llm r i (filteredNamesOf cfg), .tts r i, .saveMessage r i] }
  | resp =>
    { messages := st.messages,
      events := st.events
        ++ [.model_thinking m.model_id m.model_name r, turnErrorEvent m resp],
      calls := st.calls ++ [.llm r i (filteredNamesOf cfg)] }

/-- The inner participant loop of a round (line 259), carrying the enumerate
index `i`. -/
def runModelsAux (cfg : DebateCfg) (env : RunEnv) (r : ℕ) (mtype : String) :
    ℕ → List DebateModel → RunState → RunState
  | _, [], st => st
  | i, m :: ms, st =>
      runModelsAux cfg env r mtype (i + 1) ms
        (runTurn cfg (env.turn r i) r mtype i m st)

/-- One round (lines 242-256): persist `current_round` (failure is log-only),
compute the message kind, then run every participant in order. -/
def runRound (cfg : DebateCfg) (env : RunEnv) (r : ℕ) (st : RunState) :
    RunState :=
  runModelsAux cfg env r (roundKind r cfg.rounds) 0 cfg.models
    { st with calls := st.calls ++ [.saveRound r] }

/-- The round loop, `for round_num in range(1, rounds + 1)`, as a recursion
on the number of remaining rounds. -/
def runRoundsAux (cfg : DebateCfg) (env : RunEnv) : ℕ → ℕ → RunState → RunState
  | _, 0, st => st
  | r, k + 1, st => runRoundsAux cfg env (r + 1) k (runRound cfg env r st)

/-- Error event for a failed initial status save (lines 230-238); exception
text abstracted. -/
def startErrEvent : Event :=
  .error none none "Failed to start debate: DatabaseError"
    "Could not start the debate: DatabaseError"

/-- The whole debate run (lines 196-500): `debate_started` event, initial
`in_progress` save (fatal on failure), all rounds, completion save, the
`get_debate_results` hand-off, and the final `debate_complete` event carrying
`len(debate.messages)`. -/
def run_debate (cfg : DebateCfg) (env : RunEnv) : RunState :=
  let st0 : RunState :=
    { messages := [],
      events := [.debate_started cfg.debate_id "in_progress"],
      calls := [.saveStart] }
  if env.startSaveOk then
    let st1 := runRoundsAux cfg env 1 cfg.rounds st0
    { messages := st1.messages,
      events := st1.events
        ++ [.debate_complete cfg.debate_id "completed" st1.messages.length],
      calls := st1.calls ++ [.saveComplete, .fetchResults] }
  else
    { st0 with events := st0.events ++ [startErrEvent] }

/-!
## Structural lemmas about the run
-/

/-- The (round, sequence, kind, participant) signature of a message. -/
def msgSig (m : Message) : ℕ × ℕ × String × String :=
  (m.round, m.sequence, m.message_type, m.model_id)

theorem msgSig_applyAudio (a : AudioOutcome) (m : Message) :
    msgSig (applyAudio a m) = msgSig m := by
  cases a <;> rfl

theorem msgSig_turnMessage (cfg : DebateCfg) (te : TurnEnv) (r : ℕ)
    (mtype : String) (m : DebateModel) (len : ℕ) (c : String)
    (p : List (String × ℚ)) :
    msgSig (turnMessage cfg te r mtype m len c p)
      = (r, len + 1, mtype, m.model_id) := by
  unfold turnMessage
  rw [msgSig_applyAudio]
  rfl

/-- Unfolding equation for a turn whose model response is valid. -/
theorem runTurn_ok (cfg : DebateCfg) (te : TurnEnv) (r : ℕ) (mtype : String)
    (i : ℕ) (m : DebateModel) (st : RunState) (c : String)
    (p : List (String × ℚ)) (h : te.resp = .ok c p) :
    runTurn cfg te r mtype i m st =
      { messages := st.messages
          ++ [turnMessage cfg te r mtype m st.messages.length c p],
        events := st.events ++ [.model_thinking m.model_id m.model_name r]
          ++ (if te.saveOk
              then [Event.message
                      (turnMessage cfg te r mtype m st.messages.length c p)]
              else [saveFailEvent m]),
        calls := st.calls
          ++ [.llm r i (filteredNamesOf cfg), .tts r i, .saveMessage r i] } := by
  unfold runTurn
  rw [h]

/-- Unfolding equation for a turn whose model response is invalid or whose
model call raised. -/
theorem runTurn_fail (cfg : DebateCfg) (te : TurnEnv) (r : ℕ) (mtype : String)
    (i : ℕ) (m : DebateModel) (st : RunState)
    (h : te.resp.isOk = false) :
    runTurn cfg te r mtype i m st =
      { messages := st.messages,
        events := st.events
          ++ [.model_thinking m.model_id m.model_name r,
              turnErrorEvent m te.resp],
        calls := st.calls ++ [.llm r i (filteredNamesOf cfg)] } := by
  unfold runTurn
  cases hr : te.resp
  case ok c p => rw [hr] at h; exact absurd h (by simp [ModelResp.isOk])
  all_goals rfl

theorem isOk_exists (resp : ModelResp) (h : resp.isOk = true) :
    ∃ c p, resp = .ok c p := by
  cases resp <;> simp_all [ModelResp.isOk]

/-- `st'` is `st` with material appended to every component: the run only
ever appends to the message list, the event queue, and the call trace. -/
def Extends (st st' : RunState) : Prop :=
  (∃ t, st'.messages = st.messages ++ t)
  ∧ (∃ t, st'.events = st.events ++ t)
  ∧ (∃ t, st'.calls = st.calls ++ t)

theorem extends_refl (st : RunState) : Extends st st :=
  ⟨⟨[], by simp⟩, ⟨[], by simp⟩, ⟨[], by simp⟩⟩

theorem extends_trans {a b c : RunState} (h1 : Extends a b) (h2 : Extends b c) :
    Extends a c := by
  obtain ⟨⟨t1, e1⟩, ⟨t2, e2⟩, ⟨t3, e3⟩⟩ := h1
  obtain ⟨⟨u1, f1⟩, ⟨u2, f2⟩, ⟨u3, f3⟩⟩ := h2
  refine ⟨⟨t1 ++ u1, ?_⟩, ⟨t2 ++ u2, ?_⟩, ⟨t3 ++ u3, ?_⟩⟩
  · rw [f1, e1, List.append_assoc]
  · rw [f2, e2, List.append_assoc]
  · rw [f3, e3, List.append_assoc]

theorem extends_runTurn (cfg : DebateCfg) (te : TurnEnv) (r : ℕ)
    (mtype : String) (i : ℕ) (m : DebateModel) (st : RunState) :
    Extends st (runTurn cfg te r mtype i m st) := by
  unfold runTurn
  cases te.resp
  case ok c p =>
    exact ⟨⟨_, rfl⟩, ⟨_, List.append_assoc _ _ _⟩, ⟨_, rfl⟩⟩
  all_goals exact ⟨⟨[], by simp⟩, ⟨_, rfl⟩, ⟨_, rfl⟩⟩

theorem extends_runModelsAux (cfg : DebateCfg) (env : RunEnv) (r : ℕ)
    (mtype : String) :
    ∀ (ms : List DebateModel) (i : ℕ) (st : RunState),
      Extends st (runModelsAux cfg env r mtype i ms st) := by
  intro ms
  induction ms with
  | nil => intro i st; exact extends_refl st
  | cons m tl ih =>
      intro i st
      exact extends_trans (extends_runTurn cfg (env.turn r i) r mtype i m st)
        (ih (i + 1) _)

theorem extends_runRound (cfg : DebateCfg) (env : RunEnv) (r : ℕ)
    (st : RunState) : Extends st (runRound cfg env r st) := by
  unfold runRound
  exact extends_trans ⟨⟨[], by simp⟩, ⟨[], by simp⟩, ⟨_, rfl⟩⟩
    (extends_runModelsAux cfg env r (roundKind r cfg.rounds) cfg.models 0 _)

theorem extends_runRoundsAux (cfg : DebateCfg) (env : RunEnv) :
    ∀ (k r : ℕ) (st : RunState), Extends st (runRoundsAux cfg env r k st) := by
  intro k
  induction k with
  | zero => intro r st; exact extends_refl st
  | succ k ih =>
      intro r st
      exact extends_trans (extends_runRound cfg env r st) (ih (r + 1) _)

theorem Extends.mem_events {st st' : RunState} (h : Extends st st')
    {e : Event} (he : e ∈ st.events) : e ∈ st'.events := by
  obtain ⟨_, ⟨t, ht⟩, _⟩ := h
  rw [ht]
  exact List.mem_append_left t he

theorem Extends.mem_calls {st st' : RunState} (h : Extends st st')
    {c : Call} (hc : c ∈ st.calls) : c ∈ st'.calls := by
  obtain ⟨_, _, ⟨t, ht⟩⟩ := h
  rw [ht]
  exact List.mem_append_left t hc

/-- Reaching participant `i + j` inside the participant loop: the loop at
index `i` over `ms` factors through the state just before that turn. -/
theorem runModelsAux_focus (cfg : DebateCfg) (env : RunEnv) (r : ℕ)
    (mtype : String) :
    ∀ (ms : List DebateModel) (j i : ℕ) (st : RunState), j < ms.length →
      ∃ st', runModelsAux cfg env r mtype i ms st
        = runModelsAux cfg env r mtype (i + j + 1) (ms.drop (j + 1))
            (runTurn cfg (env.turn r (i + j)) r mtype (i + j)
              (ms.getD j dModel) st') := by
  intro ms
  induction ms with
  | nil => intro j i st h; exact absurd h (by simp)
  | cons m tl ih =>
      intro j i st h
      cases j with
      | zero =>
          refine ⟨st, ?_⟩
          simp [runModelsAux]
      | succ j =>
          have h' : j < tl.length := by simpa using h
          obtain ⟨st', hst⟩ :=
            ih j (i + 1) (runTurn cfg (env.turn r i) r mtype i m st) h'
          refine ⟨st', ?_⟩
          simp only [List.drop_succ_cons, List.getD_cons_succ]
          have e1 : i + (j + 1) = i + 1 + j := by omega
          rw [e1]
          exact hst

/-- Reaching round `rb + 1 + t` inside the round loop. -/
theorem runRoundsAux_focus (cfg : DebateCfg) (env : RunEnv) :
    ∀ (k t rb : ℕ) (st : RunState), t < k →
      ∃ st' k', k = t + 1 + k' ∧
        runRoundsAux cfg env (rb + 1) k st
          = runRoundsAux cfg env (rb + 1 + t + 1) k'
              (runRound cfg env (rb + 1 + t) st') := by
  intro k
  induction k with
  | zero => intro t rb st h; exact absurd h (by omega)
  | succ k ih =>
      intro t rb st h
      cases t with
      | zero =>
          refine ⟨st, k, by omega, ?_⟩
          simp [runRoundsAux]
      | succ t =>
          have h' : t < k := by omega
          obtain ⟨st', k', hk, hst⟩ :=
            ih t (rb + 1) (runRound cfg env (rb + 1) st) h'
          refine ⟨st', k', by omega, ?_⟩
          have e1 : rb + 1 + (t + 1) = rb + 1 + 1 + t := by omega
          rw [e1]
          exact hst

/-- The initial run state (the `debate_started` event and the first save). -/
def startState (cfg : DebateCfg) : RunState :=
  { messages := [],
    events := [.debate_started cfg.debate_id "in_progress"],
    calls := [.saveStart] }

/-- With a successful start save, the run is the round loop applied to the
start state, plus the completion appends. -/
theorem run_debate_eq (cfg : DebateCfg) (env : RunEnv)
    (h : env.startSaveOk = true) :
    run_debate cfg env =
      { messages := (runRoundsAux cfg env 1 cfg.rounds (startState cfg)).messages,
        events := (runRoundsAux cfg env 1 cfg.rounds (startState cfg)).events
          ++ [.debate_complete cfg.debate_id "completed"
                (runRoundsAux cfg env 1 cfg.rounds (startState cfg)).messages.length],
        calls := (runRoundsAux cfg env 1 cfg.rounds (startState cfg)).calls
          ++ [.saveComplete, .fetchResults] } := by
  unfold run_debate startState
  rw [h]
  simp

/-- The final record of the run extends the state after the round loop. -/
theorem extends_completion (cfg : DebateCfg) (env : RunEnv)
    (h : env.startSaveOk = true) :
    Extends (runRoundsAux cfg env 1 cfg.rounds (startState cfg))
      (run_debate cfg env) := by
  rw [run_debate_eq cfg env h]
  exact ⟨⟨[], by simp⟩, ⟨_, rfl⟩, ⟨_, rfl⟩⟩

/-- Every in-bounds turn `(r0, i0)` is actually executed: the whole run
extends the output of that turn applied to some intermediate state. -/
theorem run_debate_focus (cfg : DebateCfg) (env : RunEnv)
    (h : env.startSaveOk = true) (r0 i0 : ℕ) (hr1 : 1 ≤ r0)
    (hr2 : r0 ≤ cfg.rounds) (hi : i0 < cfg.models.length) :
    ∃ st', Extends
      (runTurn cfg (env.turn r0 i0) r0 (roundKind r0 cfg.rounds) i0
        (cfg.models.getD i0 dModel) st')
      (run_debate cfg env) := by
  have ht : r0 - 1 < cfg.rounds := by omega
  obtain ⟨stA, k', hk, hA⟩ :=
    runRoundsAux_focus cfg env cfg.rounds (r0 - 1) 0 (startState cfg) ht
  have e1 : 0 + 1 + (r0 - 1) = r0 := by omega
  rw [e1] at hA
  have e0 : (0 : ℕ) + 1 = 1 := by omega
  rw [e0] at hA
  obtain ⟨stB, hC⟩ := runModelsAux_focus cfg env r0 (roundKind r0 cfg.rounds)
    cfg.models i0 0 { stA with calls := stA.calls ++ [.saveRound r0] } hi
  have e2 : 0 + i0 = i0 := by omega
  rw [e2] at hC
  refine ⟨stB, ?_⟩
  have hB : runRound cfg env r0 stA
      = runModelsAux cfg env r0 (roundKind r0 cfg.rounds) 0 cfg.models
          { stA with calls := stA.calls ++ [.saveRound r0] } := rfl
  have ext1 : Extends
      (runTurn cfg (env.turn r0 i0) r0 (roundKind r0 cfg.rounds) i0
        (cfg.models.getD i0 dModel) stB)
      (runRound cfg env r0 stA) := by
    rw [hB, hC]
    exact extends_runModelsAux cfg env r0 (roundKind r0 cfg.rounds)
      (cfg.models.drop (i0 + 1)) (i0 + 1) _
  have ext2 : Extends (runRound cfg env r0 stA)
      (runRoundsAux cfg env (r0 + 1) k' (runRound cfg env r0 stA)) :=
    extends_runRoundsAux cfg env k' (r0 + 1) _
  have ext12 : Extends
      (runTurn cfg (env.turn r0 i0) r0 (roundKind r0 cfg.rounds) i0
        (cfg.models.getD i0 dModel) stB)
      (runRoundsAux cfg env 1 cfg.rounds (startState cfg)) := by
    rw [hA]
    exact extends_trans ext1 ext2
  exact extends_trans ext12 (extends_completion cfg env h)

/-- Message signatures produced by one round's participant loop when every
model response in it is valid: one message per participant, in list order,
with consecutive sequence numbers continuing from the current count. -/
theorem runModelsAux_sig (cfg : DebateCfg) (env : RunEnv) (r : ℕ)
    (mtype : String) :
    ∀ (ms : List DebateModel) (i : ℕ) (st : RunState),
      (∀ j, j < ms.length → (env.turn r (i + j)).resp.isOk = true) →
      (runModelsAux cfg env r mtype i ms st).messages.map msgSig
        = st.messages.map msgSig
          ++ (List.range ms.length).map (fun j =>
              (r, st.messages.length + j + 1, mtype,
                (ms.getD j dModel).model_id)) := by
  intro ms
  induction ms with
  | nil => intro i st _; simp [runModelsAux]
  | cons m tl ih =>
      intro i st h
      obtain ⟨c, p, hcp⟩ := isOk_exists _ (by simpa using h 0 (by simp))
      have hmsgs : (runTurn cfg (env.turn r i) r mtype i m st).messages
          = st.messages
            ++ [turnMessage cfg (env.turn r i) r mtype m st.messages.length c p] := by
        rw [runTurn_ok cfg (env.turn r i) r mtype i m st c p hcp]
      have hlen : (runTurn cfg (env.turn r i) r mtype i m st).messages.length
          = st.messages.length + 1 := by
        rw [hmsgs]; simp
      have ih' := ih (i + 1) (runTurn cfg (env.turn r i) r mtype i m st)
        (fun j hj => by
          have := h (j + 1) (by simpa using hj)
          have e : i + (j + 1) = i + 1 + j := by omega
          rw [e] at this
          exact this)
      rw [show runModelsAux cfg env r mtype i (m :: tl) st
            = runModelsAux cfg env r mtype (i + 1) tl
                (runTurn cfg (env.turn r i) r mtype i m st) from rfl, ih',
        hmsgs]
      simp only [List.map_append, List.map_cons, List.map_nil,
        msgSig_turnMessage, List.length_append, List.length_cons,
        List.length_nil, List.length_map, List.range_succ_eq_map,
        List.map_map, List.getD_cons_zero, List.append_assoc,
        List.cons_append, List.nil_append, Nat.add_zero, Nat.zero_add]
      congr 2
      refine List.map_congr_left ?_
      intro j hj
      simp only [Function.comp_apply, List.getD_cons_succ, Prod.mk.injEq,
        true_and, and_true]
      omega

/-- Message signatures of the round loop when every in-scope turn has a valid
model response: round-major, participant-minor traversal with globally
consecutive sequence numbers. -/
theorem runRoundsAux_sig (cfg : DebateCfg) (env : RunEnv) :
    ∀ (k rb : ℕ) (st : RunState),
      (∀ t j, t < k → j < cfg.models.length →
        (env.turn (rb + 1 + t) j).resp.isOk = true) →
      st.messages.length = rb * cfg.models.length →
      (runRoundsAux cfg env (rb + 1) k st).messages.map msgSig
        = st.messages.map msgSig
          ++ (List.range k).flatMap (fun t =>
              (List.range cfg.models.length).map (fun j =>
                (rb + 1 + t, (rb + t) * cfg.models.length + j + 1,
                  roundKind (rb + 1 + t) cfg.rounds,
                  (cfg.models.getD j dModel).model_id))) := by
  intro k
  induction k with
  | zero => intro rb st _ _; simp [runRoundsAux]
  | succ k ih =>
      intro rb st h hlen
      have hrd : (runRound cfg env (rb + 1) st).messages.map msgSig
          = st.messages.map msgSig
            ++ (List.range cfg.models.length).map (fun j =>
                (rb + 1, st.messages.length + j + 1,
                  roundKind (rb + 1) cfg.rounds,
                  (cfg.models.getD j dModel).model_id)) := by
        unfold runRound
        exact runModelsAux_sig cfg env (rb + 1) (roundKind (rb + 1) cfg.rounds)
          cfg.models 0 { st with calls := st.calls ++ [.saveRound (rb + 1)] }
          (fun j hj => by simpa using h 0 j (by omega) hj)
      have hlen' : (runRound cfg env (rb + 1) st).messages.length
          = (rb + 1) * cfg.models.length := by
        have hc := congrArg List.length hrd
        simp only [List.length_map, List.length_append, List.length_range] at hc
        rw [hc, hlen, Nat.succ_mul]
      have ih' := ih (rb + 1) (runRound cfg env (rb + 1) st)
        (fun t j ht hj => by
          have hh := h (t + 1) j (by omega) hj
          have e : rb + 1 + (t + 1) = rb + 1 + 1 + t := by omega
          rw [e] at hh
          exact hh)
        hlen'
      rw [show runRoundsAux cfg env (rb + 1) (k + 1) st
            = runRoundsAux cfg env (rb + 1 + 1) k (runRound cfg env (rb + 1) st)
          from rfl, ih', hrd, hlen]
      simp only [List.range_succ_eq_map, List.flatMap_cons, List.flatMap_map,
        List.append_assoc, Nat.add_zero, Nat.zero_add]
      congr 2
      refine List.flatMap_congr ?_
      intro t ht
      have e1 : rb + 1 + Nat.succ t = rb + 1 + 1 + t := by omega
      have e2 : (rb + Nat.succ t) * cfg.models.length
          = (rb + 1 + t) * cfg.models.length := by
        congr 1
        omega
      rw [e1, e2]

/-!
## Claims C2 and C10: message shape of a run
-/

theorem message_type_applyAudio (a : AudioOutcome) (m : Message) :
    (applyAudio a m).message_type = m.message_type := by
  cases a <;> rfl

/-- A turn succeeds when the model response is valid and the per-message save
succeeds (audio failure never fails a turn). -/
def turnSucceeds (te : TurnEnv) : Bool := te.resp.isOk && te.saveOk

/-- The (round, sequence, participant) part of a message signature. -/
def msgSig3 (m : Message) : ℕ × ℕ × String :=
  (m.round, m.sequence, m.model_id)

/-- Round-major, participant-minor traversal signatures: the message of round
`t+1` and participant `j` carries global sequence number
`t * P + j + 1`. -/
def expectedTraversal (cfg : DebateCfg) : List (ℕ × ℕ × String) :=
  (List.range cfg.rounds).flatMap (fun t =>
    (List.range cfg.models.length).map (fun j =>
      (t + 1, t * cfg.models.length + j + 1,
        (cfg.models.getD j dModel).model_id)))

/-- The property asserted by claim C2 for a run: the messages traverse
round-major/participant-minor with sequence numbers `1..P*R`, every round-1
message has kind `initial`, and every round-R message has kind `final`. -/
def c2Property (cfg : DebateCfg) (env : RunEnv) : Bool :=
  ((run_debate cfg env).messages.map msgSig3 == expectedTraversal cfg)
  && (run_debate cfg env).messages.all (fun m =>
      ((m.round != 1) || (m.message_type == "initial"))
      && ((m.round != cfg.rounds) || (m.message_type == "final")))

/-- Full-signature characterization of a run in which every turn's model
response is valid. -/
theorem run_debate_sig (cfg : DebateCfg) (env : RunEnv)
    (hstart : env.startSaveOk = true)
    (hok : ∀ r i, 1 ≤ r → r ≤ cfg.rounds → i < cfg.models.length →
      (env.turn r i).resp.isOk = true) :
    (run_debate cfg env).messages.map msgSig
      = (List.range cfg.rounds).flatMap (fun t =>
          (List.range cfg.models.length).map (fun j =>
            (t + 1, t * cfg.models.length + j + 1,
              roundKind (t + 1) cfg.rounds,
              (cfg.models.getD j dModel).model_id))) := by
  have hmain := runRoundsAux_sig cfg env cfg.rounds 0 (startState cfg)
    (fun t j ht hj => by
      have := hok (0 + 1 + t) j (by omega) (by omega) hj
      exact this)
    (by simp [startState])
  rw [run_debate_eq cfg env hstart]
  have e0 : (0 : ℕ) + 1 = 1 := by omega
  rw [e0] at hmain
  show (runRoundsAux cfg env 1 cfg.rounds (startState cfg)).messages.map msgSig
    = _
  rw [hmain]
  simp only [startState, List.map_nil, List.nil_append]
  refine List.flatMap_congr ?_
  intro t ht
  refine List.map_congr_left ?_
  intro j hj
  rw [show 1 + t = t + 1 from by omega, show 0 + t = t from by omega]

/-- C2 (amended): with `rounds ≥ 2`, a run whose start save succeeds and in
which every turn succeeds produces exactly the round-major /
participant-minor traversal with global sequence numbers `1..P*R`, every
round-1 message of kind `initial`, and every round-R message of kind
`final`.  The `rounds ≥ 2` bound is what the single-round counterexample
forces: for `rounds = 1` the first-round rule wins and the single round's
messages are all `initial` (claim C10). -/
theorem c2_run_shape (cfg : DebateCfg) (env : RunEnv)
    (hstart : env.startSaveOk = true) (hR : 2 ≤ cfg.rounds)
    (hok : ∀ r i, 1 ≤ r → r ≤ cfg.rounds → i < cfg.models.length →
      turnSucceeds (env.turn r i) = true) :
    c2Property cfg env = true := by
  have hok' : ∀ r i, 1 ≤ r → r ≤ cfg.rounds → i < cfg.models.length →
      (env.turn r i).resp.isOk = true := by
    intro r i h1 h2 h3
    have hh := hok r i h1 h2 h3
    unfold turnSucceeds at hh
    exact (Bool.and_eq_true _ _).mp hh |>.1
  have hsig := run_debate_sig cfg env hstart hok'
  unfold c2Property
  rw [Bool.and_eq_true]
  constructor
  · rw [beq_iff_eq]
    have hproj : (run_debate cfg env).messages.map msgSig3
        = ((run_debate cfg env).messages.map msgSig).map
            (fun s => (s.1, s.2.1, s.2.2.2)) := by
      rw [List.map_map]
      rfl
    rw [hproj, hsig]
    unfold expectedTraversal
    rw [List.map_flatMap]
    refine List.flatMap_congr ?_
    intro t ht
    rw [List.map_map]
    rfl
  · rw [List.all_eq_true]
    intro m hm
    have hmem : msgSig m ∈ (run_debate cfg env).messages.map msgSig :=
      List.mem_map_of_mem msgSig hm
    rw [hsig] at hmem
    simp only [List.mem_flatMap, List.mem_map, List.mem_range] at hmem
    obtain ⟨t, ht, j, hj, hEq⟩ := hmem
    have hround : m.round = t + 1 := by
      have hc := congrArg (fun s => s.1) hEq
      simpa [msgSig] using hc.symm
    have hkind : m.message_type = roundKind (t + 1) cfg.rounds := by
      have hc := congrArg (fun s => s.2.2.1) hEq
      simpa [msgSig] using hc.symm
    rw [Bool.and_eq_true, Bool.or_eq_true, Bool.or_eq_true]
    constructor
    · by_cases h1 : m.round = 1
      · right
        rw [beq_iff_eq, hkind, show t = 0 from by omega]
        simp [roundKind]
      · left
        simpa [bne_iff_ne] using h1
    · by_cases h2 : m.round = cfg.rounds
      · right
        rw [beq_iff_eq, hkind, show t + 1 = cfg.rounds from by omega]
        unfold roundKind
        rw [if_neg (by omega), if_pos rfl]
      · left
        simpa [bne_iff_ne] using h2

/-!
## Concrete participants, outcomes, and environments for counterexamples and
witnesses
-/

def modelA : DebateModel :=
  { model_id := "model-a", model_name := "Model A", provider := "prov" }

def modelB : DebateModel :=
  { model_id := "model-b", model_name := "Model B", provider := "prov" }

def modelC : DebateModel :=
  { model_id := "model-c", model_name := "Model C", provider := "prov" }

def outcomeYes : Outcome :=
  { name := "Yes", volume := none, shares := none,
    price_change_24h := none, price := 1 }

def okTurn : TurnEnv :=
  { resp := .ok "argument" [("Yes", 100)], audio := .neither, saveOk := true }

def allOkEnv : RunEnv := { startSaveOk := true, turn := fun _ _ => okTurn }

def cfgSingle : DebateCfg :=
  { debate_id := "d1", models := [modelA], outcomes := [outcomeYes],
    rounds := 1 }

def cfgThree : DebateCfg :=
  { debate_id := "d3", models := [modelA, modelB, modelC],
    outcomes := [outcomeYes], rounds := 3 }

/-- C2 counterexample: with one participant and one round every turn
succeeds, yet the claimed property is false, because the single round is both
round 1 and round R and its message has kind `initial`, not `final`. -/
theorem c2_single_round_counterexample :
    c2Property cfgSingle allOkEnv = false
    ∧ allOkEnv.startSaveOk = true
    ∧ turnSucceeds (allOkEnv.turn 1 0) = true := by
  refine ⟨by decide, rfl, rfl⟩

/-- C2 witness: the 3-participant, 3-round all-successful run satisfies the
amended property. -/
theorem c2_run_shape_witness : c2Property cfgThree allOkEnv = true :=
  c2_run_shape cfgThree allOkEnv rfl (by decide) (fun _ _ _ _ _ => rfl)

/-- Every message appended by the participant loop carries the round's
message kind. -/
theorem messages_type_runModelsAux (cfg : DebateCfg) (env : RunEnv) (r : ℕ)
    (mtype : String) :
    ∀ (ms : List DebateModel) (i : ℕ) (st : RunState),
      (∀ m' ∈ st.messages, m'.message_type = mtype) →
      ∀ m' ∈ (runModelsAux cfg env r mtype i ms st).messages,
        m'.message_type = mtype := by
  intro ms
  induction ms with
  | nil => intro i st h; exact h
  | cons m tl ih =>
      intro i st h
      refine ih (i + 1) _ ?_
      intro m' hm'
      cases hb : (env.turn r i).resp.isOk
      case false =>
        rw [runTurn_fail cfg (env.turn r i) r mtype i m st hb] at hm'
        exact h m' hm'
      case true =>
        obtain ⟨c, p, hcp⟩ := isOk_exists _ hb
        rw [runTurn_ok cfg (env.turn r i) r mtype i m st c p hcp] at hm'
        have hm2 : m' ∈ st.messages
            ++ [turnMessage cfg (env.turn r i) r mtype m st.messages.length c p] :=
          hm'
        rcases List.mem_append.mp hm2 with h1 | h2
        · exact h m' h1
        · rw [List.mem_singleton.mp h2]
          unfold turnMessage
          rw [message_type_applyAudio]

/-- C10: in a debate with `rounds = 1`, every message produced in the single
round has kind `initial`, never `final` -- the first-round branch of the
kind computation wins when first and last round coincide. -/
theorem c10_single_round_initial (id : String) (models : List DebateModel)
    (outcomes : List Outcome) (env : RunEnv) :
    ((run_debate
        { debate_id := id, models := models, outcomes := outcomes,
          rounds := 1 } env).messages.all
      (fun m => m.message_type == "initial")) = true := by
  rw [List.all_eq_true]
  intro m hm
  rw [beq_iff_eq]
  cases hstart : env.startSaveOk
  case false =>
    unfold run_debate at hm
    rw [hstart] at hm
    simp at hm
  case true =>
    rw [run_debate_eq _ env hstart] at hm
    have hm2 : m ∈ (runRound
        { debate_id := id, models := models, outcomes := outcomes,
          rounds := 1 } env 1
        (startState
          { debate_id := id, models := models, outcomes := outcomes,
            rounds := 1 })).messages := hm
    exact messages_type_runModelsAux _ env 1 "initial" models 0 _
      (by simp [startState]) m hm2

/-!
## Claim C3: a failing turn is reported and isolated
-/

theorem turnErrStr_ne_empty (model_id : String) (resp : ModelResp) :
    turnErrStr model_id resp ≠ "" := by
  unfold turnErrStr
  intro h
  have hlen := congrArg String.length h
  rw [String.length_append, String.length_append] at hlen
  have h2 : (": ").length = 2 := rfl
  rw [h2] at hlen
  simp at hlen

theorem turnErrMsg_ne_empty (model_name model_id : String)
    (resp : ModelResp) : turnErrMsg model_name model_id resp ≠ "" := by
  unfold turnErrMsg
  intro h
  have hlen := congrArg String.length h
  rw [String.length_append, String.length_append,
    String.length_append] at hlen
  have h2 : ("Error from ").length = 11 := rfl
  rw [h2] at hlen
  simp at hlen

/-- The model call of every in-bounds turn appears in the call trace,
regardless of which turns fail. -/
theorem llm_call_mem (cfg : DebateCfg) (env : RunEnv)
    (hstart : env.startSaveOk = true) (r0 i0 : ℕ) (hr1 : 1 ≤ r0)
    (hr2 : r0 ≤ cfg.rounds) (hi : i0 < cfg.models.length) :
    Call.llm r0 i0 (filteredNamesOf cfg) ∈ (run_debate cfg env).calls := by
  obtain ⟨st', hext⟩ := run_debate_focus cfg env hstart r0 i0 hr1 hr2 hi
  refine hext.mem_calls ?_
  unfold runTurn
  cases (env.turn r0 i0).resp <;> simp

/-- Every in-bounds turn's model call is in the trace (decidable form). -/
def allTurnsCalled (cfg : DebateCfg) (env : RunEnv) : Bool :=
  (List.range cfg.rounds).all (fun t =>
    (List.range cfg.models.length).all (fun j =>
      decide (Call.llm (t + 1) j (filteredNamesOf cfg)
        ∈ (run_debate cfg env).calls)))

/-- C3: when a turn's model response is invalid (or its model call raised),
the run emits an error event carrying that participant's identity whose
error and message fields are both non-empty, and the scheduler still makes
the model call of every other in-bounds turn -- in the failing round and in
all later rounds -- so one failure never aborts the debate. -/
theorem c3_turn_failure_isolated (cfg : DebateCfg) (env : RunEnv)
    (r0 i0 : ℕ) (hstart : env.startSaveOk = true) (hr1 : 1 ≤ r0)
    (hr2 : r0 ≤ cfg.rounds) (hi : i0 < cfg.models.length)
    (hfail : (env.turn r0 i0).resp.isOk = false) :
    turnErrorEvent (cfg.models.getD i0 dModel) (env.turn r0 i0).resp
        ∈ (run_debate cfg env).events
    ∧ turnErrStr (cfg.models.getD i0 dModel).model_id
        (env.turn r0 i0).resp ≠ ""
    ∧ turnErrMsg (cfg.models.getD i0 dModel).model_name
        (cfg.models.getD i0 dModel).model_id (env.turn r0 i0).resp ≠ ""
    ∧ allTurnsCalled cfg env = true := by
  refine ⟨?_, turnErrStr_ne_empty _ _, turnErrMsg_ne_empty _ _ _, ?_⟩
  · obtain ⟨st', hext⟩ := run_debate_focus cfg env hstart r0 i0 hr1 hr2 hi
    refine hext.mem_events ?_
    rw [runTurn_fail cfg (env.turn r0 i0) r0 (roundKind r0 cfg.rounds) i0
      (cfg.models.getD i0 dModel) st' hfail]
    simp
  · unfold allTurnsCalled
    rw [List.all_eq_true]
    intro t ht
    rw [List.all_eq_true]
    intro j hj
    rw [decide_eq_true_iff]
    exact llm_call_mem cfg env hstart (t + 1) j (by omega)
      (by have := List.mem_range.mp ht; omega)
      (List.mem_range.mp hj)

/-- Environment in which exactly the turn of round 2, participant 1 fails
with a raised model-call exception. -/
def envOneFail : RunEnv :=
  { startSaveOk := true,
    turn := fun r i =>
      if r = 2 && i = 1 then
        { resp := .raised "TimeoutError" "model timed out",
          audio := .neither, saveOk := true }
      else okTurn }

/-- C3 witness: in the 3-participant, 3-round run where participant B fails
in round 2, the error event is emitted with non-empty fields and all nine
turns are still executed. -/
theorem c3_turn_failure_isolated_witness :
    turnErrorEvent (cfgThree.models.getD 1 dModel) ((envOneFail.turn 2 1).resp)
        ∈ (run_debate cfgThree envOneFail).events
    ∧ turnErrStr (cfgThree.models.getD 1 dModel).model_id
        ((envOneFail.turn 2 1).resp) ≠ ""
    ∧ turnErrMsg (cfgThree.models.getD 1 dModel).model_name
        (cfgThree.models.getD 1 dModel).model_id
        ((envOneFail.turn 2 1).resp) ≠ ""
    ∧ allTurnsCalled cfgThree envOneFail = true :=
  c3_turn_failure_isolated cfgThree envOneFail 2 1 rfl (by decide) (by decide)
    (by decide) (by decide)

/-!
## Claim C7: a turn whose outcome filter removes everything
-/

def Event.isErrorEvent : Event → Bool
  | .error _ _ _ _ => true
  | _ => false

/-- Whether any error event was put on the queue. -/
def hasErrorEvent (evs : List Event) : Bool := evs.any Event.isErrorEvent

/-- A succeeding turn appends no error event. -/
theorem noError_runTurn (cfg : DebateCfg) (te : TurnEnv) (r : ℕ)
    (mtype : String) (i : ℕ) (m : DebateModel) (st : RunState)
    (hok : turnSucceeds te = true)
    (h : hasErrorEvent st.events = false) :
    hasErrorEvent (runTurn cfg te r mtype i m st).events = false := by
  unfold turnSucceeds at hok
  obtain ⟨hresp, hsave⟩ := (Bool.and_eq_true _ _).mp hok
  obtain ⟨c, p, hcp⟩ := isOk_exists _ hresp
  rw [runTurn_ok cfg te r mtype i m st c p hcp]
  unfold hasErrorEvent at h ⊢
  simp only [List.any_append, hsave, if_true, h]
  rfl

theorem noError_runModelsAux (cfg : DebateCfg) (env : RunEnv) (r : ℕ)
    (mtype : String) :
    ∀ (ms : List DebateModel) (i : ℕ) (st : RunState),
      (∀ j, j < ms.length → turnSucceeds (env.turn r (i + j)) = true) →
      hasErrorEvent st.events = false →
      hasErrorEvent (runModelsAux cfg env r mtype i ms st).events = false := by
  intro ms
  induction ms with
  | nil => intro i st _ h; exact h
  | cons m tl ih =>
      intro i st hok h
      refine ih (i + 1) _ (fun j hj => ?_) ?_
      · have hh := hok (j + 1) (by simpa using hj)
        have e : i + (j + 1) = i + 1 + j := by omega
        rw [e] at hh
        exact hh
      · exact noError_runTurn cfg (env.turn r i) r mtype i m st
          (by simpa using hok 0 (by simp)) h

theorem noError_runRoundsAux (cfg : DebateCfg) (env : RunEnv) :
    ∀ (k rb : ℕ) (st : RunState),
      (∀ t j, t < k → j < cfg.models.length →
        turnSucceeds (env.turn (rb + 1 + t) j) = true) →
      hasErrorEvent st.events = false →
      hasErrorEvent (runRoundsAux cfg env (rb + 1) k st).events = false := by
  intro k
  induction k with
  | zero => intro rb st _ h; exact h
  | succ k ih =>
      intro rb st hok h
      refine ih (rb + 1) _ (fun t j ht hj => ?_) ?_
      · have hh := hok (t + 1) j (by omega) hj
        have e : rb + 1 + (t + 1) = rb + 1 + 1 + t := by omega
        rw [e] at hh
        exact hh
      · unfold runRound
        exact noError_runModelsAux cfg env (rb + 1) (roundKind (rb + 1) cfg.rounds)
          cfg.models 0 _ (fun j hj => by simpa using hok 0 j (by omega) hj) h

/-- A run in which every turn succeeds emits no error event at all. -/
theorem noError_run_debate (cfg : DebateCfg) (env : RunEnv)
    (hstart : env.startSaveOk = true)
    (hok : ∀ r i, 1 ≤ r → r ≤ cfg.rounds → i < cfg.models.length →
      turnSucceeds (env.turn r i) = true) :
    hasErrorEvent (run_debate cfg env).events = false := by
  rw [run_debate_eq cfg env hstart]
  show hasErrorEvent ((runRoundsAux cfg env 1 cfg.rounds (startState cfg)).events
    ++ [.debate_complete cfg.debate_id "completed"
          (runRoundsAux cfg env 1 cfg.rounds (startState cfg)).messages.length])
    = false
  unfold hasErrorEvent
  rw [List.any_append]
  have h1 : (runRoundsAux cfg env 1 cfg.rounds (startState cfg)).events.any
      Event.isErrorEvent = false := by
    have := noError_runRoundsAux cfg env cfg.rounds 0 (startState cfg)
      (fun t j ht hj => hok (0 + 1 + t) j (by omega) (by omega) hj)
      (by simp [hasErrorEvent, startState, Event.isErrorEvent])
    rw [show (0 : ℕ) + 1 = 1 from rfl] at this
    exact this
  rw [h1]
  rfl

/-- Messages of an all-successful run number exactly `rounds * participants`. -/
theorem run_messages_count (cfg : DebateCfg) (env : RunEnv)
    (hstart : env.startSaveOk = true)
    (hok : ∀ r i, 1 ≤ r → r ≤ cfg.rounds → i < cfg.models.length →
      (env.turn r i).resp.isOk = true) :
    (run_debate cfg env).messages.length
      = cfg.rounds * cfg.models.length := by
  have hsig := run_debate_sig cfg env hstart hok
  have hlen := congrArg List.length hsig
  rw [List.length_map] at hlen
  rw [hlen, List.length_flatMap]
  have hmap : List.map
      (List.length ∘ fun t =>
        List.map
          (fun j =>
            (t + 1, t * cfg.models.length + j + 1, roundKind (t + 1) cfg.rounds,
              (cfg.models.getD j dModel).model_id))
          (List.range cfg.models.length))
      (List.range cfg.rounds)
      = List.map (fun _ => cfg.models.length) (List.range cfg.rounds) := by
    refine List.map_congr_left ?_
    intro t ht
    simp [Function.comp]
  rw [hmap]
  simp

/-- C7 (amended): when the outcome filter removes every outcome, no
recoverable error is surfaced -- the condition is only logged.  Each turn's
model call is still made, carrying zero outcome names, the turns proceed and
produce their messages, and (with every turn succeeding) the run emits no
error event at all. -/
theorem c7_proceeds_with_zero_outcomes (cfg : DebateCfg) (env : RunEnv)
    (hstart : env.startSaveOk = true)
    (hfilter : filter_outcomes_for_ai cfg.outcomes = [])
    (hok : ∀ r i, 1 ≤ r → r ≤ cfg.rounds → i < cfg.models.length →
      turnSucceeds (env.turn r i) = true) :
    filteredNamesOf cfg = []
    ∧ hasErrorEvent (run_debate cfg env).events = false
    ∧ allTurnsCalled cfg env = true
    ∧ (run_debate cfg env).messages.length
        = cfg.rounds * cfg.models.length := by
  have hok' : ∀ r i, 1 ≤ r → r ≤ cfg.rounds → i < cfg.models.length →
      (env.turn r i).resp.isOk = true := by
    intro r i h1 h2 h3
    have hh := hok r i h1 h2 h3
    unfold turnSucceeds at hh
    exact ((Bool.and_eq_true _ _).mp hh).1
  refine ⟨?_, noError_run_debate cfg env hstart hok, ?_,
    run_messages_count cfg env hstart hok'⟩
  · unfold filteredNamesOf
    rw [hfilter]
    rfl
  · unfold allTurnsCalled
    rw [List.all_eq_true]
    intro t ht
    rw [List.all_eq_true]
    intro j hj
    rw [decide_eq_true_iff]
    exact llm_call_mem cfg env hstart (t + 1) j (by omega)
      (by have := List.mem_range.mp ht; omega) (List.mem_range.mp hj)

def outcomePlaceholder : Outcome :=
  { name := "Placeholder 1", volume := none, shares := none,
    price_change_24h := none, price := 1 }

def cfgAllFiltered : DebateCfg :=
  { debate_id := "d7", models := [modelA], outcomes := [outcomePlaceholder],
    rounds := 1 }

/-- C7 counterexample: the non-empty outcome list consisting of one
placeholder outcome is filtered down to nothing, yet the run surfaces no
error event: the turn succeeds, produces its message, and the model
collaborator is invoked with an empty outcome-name list. -/
theorem c7_all_filtered_no_error_surfaced :
    cfgAllFiltered.outcomes ≠ []
    ∧ filter_outcomes_for_ai cfgAllFiltered.outcomes = []
    ∧ turnSucceeds (allOkEnv.turn 1 0) = true
    ∧ hasErrorEvent (run_debate cfgAllFiltered allOkEnv).events = false
    ∧ (run_debate cfgAllFiltered allOkEnv).messages.length = 1
    ∧ Call.llm 1 0 [] ∈ (run_debate cfgAllFiltered allOkEnv).calls := by
  refine ⟨by decide, by decide, rfl, by decide, by decide, by decide⟩

/-- C7 witness for the amended statement at the all-filtered debate. -/
theorem c7_proceeds_with_zero_outcomes_witness :
    filteredNamesOf cfgAllFiltered = []
    ∧ hasErrorEvent (run_debate cfgAllFiltered allOkEnv).events = false
    ∧ allTurnsCalled cfgAllFiltered allOkEnv = true
    ∧ (run_debate cfgAllFiltered allOkEnv).messages.length
        = cfgAllFiltered.rounds * cfgAllFiltered.models.length :=
  c7_proceeds_with_zero_outcomes cfgAllFiltered allOkEnv rfl (by decide)
    (fun _ _ _ _ _ => rfl)

/-!
## Claim C8: order of synthesis and persistence within a turn
-/

def AudioOutcome.failed : AudioOutcome → Bool
  | .ok _ _ => false
  | _ => true

theorem applyAudio_of_failed (a : AudioOutcome) (m : Message)
    (h : a.failed = true) : applyAudio a m = m := by
  cases a
  case ok u d => simp [AudioOutcome.failed] at h
  all_goals rfl

theorem startsWithL_append {α : Type} [DecidableEq α] :
    ∀ (seg l2 : List α), startsWithL (seg ++ l2) seg = true := by
  intro seg
  induction seg with
  | nil => intro l2; cases l2 <;> rfl
  | cons a tl ih => intro l2; simp [startsWithL, ih]

theorem hasSegL_nil_seg {α : Type} [DecidableEq α] (l : List α) :
    hasSegL l [] = true := by
  cases l <;> rfl

theorem hasSegL_of_decomp {α : Type} [DecidableEq α] :
    ∀ (l1 seg l2 : List α), hasSegL ((l1 ++ seg) ++ l2) seg = true := by
  intro l1
  induction l1 with
  | nil =>
      intro seg l2
      cases seg with
      | nil => exact hasSegL_nil_seg l2
      | cons s ss =>
          show hasSegL ((s :: ss) ++ l2) (s :: ss) = true
          rw [List.cons_append]
          show (startsWithL (s :: (ss ++ l2)) (s :: ss)
            || hasSegL (ss ++ l2) (s :: ss)) = true
          rw [show s :: (ss ++ l2) = (s :: ss) ++ l2 from rfl,
            startsWithL_append]
          rfl
  | cons a tl ih =>
      intro seg l2
      show (startsWithL (((a :: tl) ++ seg) ++ l2) seg
        || hasSegL ((tl ++ seg) ++ l2) seg) = true
      rw [ih]
      simp

theorem Extends.mem_messages {st st' : RunState} (h : Extends st st')
    {m : Message} (hm : m ∈ st.messages) : m ∈ st'.messages := by
  obtain ⟨⟨t, ht⟩, _, _⟩ := h
  rw [ht]
  exact List.mem_append_left t hm

/-- Sequence numbers count up from `n` along the list. -/
def seqFrom : ℕ → List Message → Bool
  | _, [] => true
  | n, m :: ms => (m.sequence == n) && seqFrom (n + 1) ms

theorem seqFrom_append_one :
    ∀ (l : List Message) (n : ℕ) (m : Message),
      seqFrom n (l ++ [m])
        = (seqFrom n l && (m.sequence == n + l.length)) := by
  intro l
  induction l with
  | nil => intro n m; simp [seqFrom]
  | cons x tl ih =>
      intro n m
      show ((x.sequence == n) && seqFrom (n + 1) (tl ++ [m])) = _
      rw [ih (n + 1) m]
      simp only [List.length_cons, Bool.and_assoc]
      rw [show n + 1 + tl.length = n + (tl.length + 1) from by omega,
        show seqFrom n (x :: tl) = ((x.sequence == n) && seqFrom (n + 1) tl)
          from rfl, Bool.and_assoc]

theorem seqFrom_runTurn (cfg : DebateCfg) (te : TurnEnv) (r : ℕ)
    (mtype : String) (i : ℕ) (m : DebateModel) (st : RunState)
    (h : seqFrom 1 st.messages = true) :
    seqFrom 1 (runTurn cfg te r mtype i m st).messages = true := by
  cases hb : te.resp.isOk
  case false => rw [runTurn_fail cfg te r mtype i m st hb]; exact h
  case true =>
    obtain ⟨c, p, hcp⟩ := isOk_exists _ hb
    rw [runTurn_ok cfg te r mtype i m st c p hcp]
    show seqFrom 1 (st.messages
      ++ [turnMessage cfg te r mtype m st.messages.length c p]) = true
    rw [seqFrom_append_one, h]
    have hs : (turnMessage cfg te r mtype m st.messages.length c p).sequence
        = st.messages.length + 1 := by
      have hc := congrArg (fun s => s.2.1)
        (msgSig_turnMessage cfg te r mtype m st.messages.length c p)
      simpa [msgSig] using hc
    rw [hs]
    simp [Nat.add_comm]

theorem seqFrom_runModelsAux (cfg : DebateCfg) (env : RunEnv) (r : ℕ)
    (mtype : String) :
    ∀ (ms : List DebateModel) (i : ℕ) (st : RunState),
      seqFrom 1 st.messages = true →
      seqFrom 1 (runModelsAux cfg env r mtype i ms st).messages = true := by
  intro ms
  induction ms with
  | nil => intro i st h; exact h
  | cons m tl ih =>
      intro i st h
      exact ih (i + 1) _ (seqFrom_runTurn cfg (env.turn r i) r mtype i m st h)

theorem seqFrom_runRoundsAux (cfg : DebateCfg) (env : RunEnv) :
    ∀ (k r : ℕ) (st : RunState),
      seqFrom 1 st.messages = true →
      seqFrom 1 (runRoundsAux cfg env r k st).messages = true := by
  intro k
  induction k with
  | zero => intro r st h; exact h
  | succ k ih =>
      intro r st h
      refine ih (r + 1) _ ?_
      unfold runRound
      exact seqFrom_runModelsAux cfg env r (roundKind r cfg.rounds)
        cfg.models 0 _ h

/-- In every run, the `j`-th stored message carries sequence number `j+1`:
each message is created with `len(existing messages) + 1`. -/
theorem run_seqFrom (cfg : DebateCfg) (env : RunEnv) :
    seqFrom 1 (run_debate cfg env).messages = true := by
  cases hstart : env.startSaveOk
  case false =>
    unfold run_debate
    rw [hstart]
    rfl
  case true =>
    rw [run_debate_eq cfg env hstart]
    show seqFrom 1 (runRoundsAux cfg env 1 cfg.rounds (startState cfg)).messages
      = true
    exact seqFrom_runRoundsAux cfg env cfg.rounds 1 (startState cfg) rfl

/-- C8 (amended): a successful turn constructs its message with sequence
number `len(existing messages) + 1`, invokes the speech-synthesis
collaborator, and only then persists the message -- synthesis comes before
persistence, not after.  A synthesis failure leaves the message without
audio and the turn still succeeds: the message is stored and the
llm/tts/persist calls appear consecutively in that order. -/
theorem c8_turn_order (cfg : DebateCfg) (env : RunEnv) (r0 i0 : ℕ)
    (c : String) (p : List (String × ℚ))
    (hstart : env.startSaveOk = true) (hr1 : 1 ≤ r0)
    (hr2 : r0 ≤ cfg.rounds) (hi : i0 < cfg.models.length)
    (hok : (env.turn r0 i0).resp = .ok c p)
    (haudio : (env.turn r0 i0).audio.failed = true) :
    hasSegL (run_debate cfg env).calls
        [Call.llm r0 i0 (filteredNamesOf cfg), Call.tts r0 i0,
         Call.saveMessage r0 i0] = true
    ∧ seqFrom 1 (run_debate cfg env).messages = true
    ∧ (run_debate cfg env).messages.any (fun m =>
        (m.round == r0)
        && (m.model_id == (cfg.models.getD i0 dModel).model_id)
        && (m.message_type == roundKind r0 cfg.rounds) && (m.text == c)
        && (m.audio_url == none) && (m.audio_duration == none)) = true := by
  obtain ⟨st', hext⟩ := run_debate_focus cfg env hstart r0 i0 hr1 hr2 hi
  have hturn := runTurn_ok cfg (env.turn r0 i0) r0 (roundKind r0 cfg.rounds)
    i0 (cfg.models.getD i0 dModel) st' c p hok
  refine ⟨?_, run_seqFrom cfg env, ?_⟩
  · obtain ⟨_, _, ⟨tl, htl⟩⟩ := hext
    rw [htl, hturn]
    show hasSegL ((st'.calls
      ++ [Call.llm r0 i0 (filteredNamesOf cfg), Call.tts r0 i0,
          Call.saveMessage r0 i0]) ++ tl) _ = true
    exact hasSegL_of_decomp st'.calls
      [Call.llm r0 i0 (filteredNamesOf cfg), Call.tts r0 i0,
       Call.saveMessage r0 i0] tl
  · rw [List.any_eq_true]
    refine ⟨turnMessage cfg (env.turn r0 i0) r0 (roundKind r0 cfg.rounds)
      (cfg.models.getD i0 dModel) st'.messages.length c p, ?_, ?_⟩
    · refine hext.mem_messages ?_
      rw [hturn]
      show _ ∈ st'.messages ++ [_]
      simp
    · unfold turnMessage
      rw [applyAudio_of_failed _ _ haudio]
      simp

/-- First index of `a` in the list (length of the list when absent). -/
def firstIdx {α : Type} [DecidableEq α] : List α → α → ℕ
  | [], _ => 0
  | b :: tl, a => if a = b then 0 else firstIdx tl a + 1

/-- The ordering asserted by claim C8 for turn `(r, i)`: the per-message
persistence call occurs, the synthesis call occurs, and the persistence call
comes strictly before the synthesis call. -/
def c8ClaimOrder (cfg : DebateCfg) (env : RunEnv) (r i : ℕ) : Bool :=
  decide (Call.saveMessage r i ∈ (run_debate cfg env).calls)
  && decide (Call.tts r i ∈ (run_debate cfg env).calls)
  && decide (firstIdx (run_debate cfg env).calls (Call.saveMessage r i)
      < firstIdx (run_debate cfg env).calls (Call.tts r i))

/-- C8 counterexample: in the single-turn run whose turn fully succeeds,
the claim's order -- persist first, synthesize only after persistence -- is
false: the trace invokes synthesis before the per-message save. -/
theorem c8_persist_after_synthesis_counterexample :
    turnSucceeds (allOkEnv.turn 1 0) = true
    ∧ c8ClaimOrder cfgSingle allOkEnv 1 0 = false :=
  ⟨rfl, by decide⟩

def envAudioFail : RunEnv :=
  { startSaveOk := true,
    turn := fun _ _ =>
      { resp := .ok "argument" [("Yes", 100)],
        audio := .raised "tts down", saveOk := true } }

/-- C8 witness: the amended order statement at a concrete run whose audio
synthesis raises. -/
theorem c8_turn_order_witness :
    hasSegL (run_debate cfgSingle envAudioFail).calls
        [Call.llm 1 0 (filteredNamesOf cfgSingle), Call.tts 1 0,
         Call.saveMessage 1 0] = true
    ∧ seqFrom 1 (run_debate cfgSingle envAudioFail).messages = true
    ∧ (run_debate cfgSingle envAudioFail).messages.any (fun m =>
        (m.round == 1)
        && (m.model_id == (cfgSingle.models.getD 0 dModel).model_id)
        && (m.message_type == roundKind 1 cfgSingle.rounds)
        && (m.text == "argument")
        && (m.audio_url == none) && (m.audio_duration == none)) = true :=
  c8_turn_order cfgSingle envAudioFail 1 0 "argument" [("Yes", 100)] rfl
    (by decide) (by decide) (by decide) rfl rfl

/-!
## Claim C9: the statistics market-delta label
(`DebateService._calculate_statistics`, lines 707-764)
-/

/-- Final predictions per participant (lines 721-728): for each model, the
prediction mapping of its last message, kept only when non-empty. -/
def allFinalPredictions (messages : List Message)
    (models : List DebateModel) : List (List (String × ℚ)) :=
  models.filterMap (fun model =>
    match (messages.filter (fun m => m.model_id == model.model_id)).getLast? with
    | some last =>
        if last.predictions.isEmpty then none else some last.predictions
    | none => none)

/-- Average prediction per outcome (lines 730-743): over the models whose
final predictions mention the outcome, `round(sum / len)` to an integer.
(The median and pooled variance computed alongside in the source do not feed
the market-delta label verified here.) -/
def averagePrediction (afp : List (List (String × ℚ)))
    (outcomes : List Outcome) : List (String × ℚ) :=
  if afp.isEmpty || outcomes.isEmpty then []
  else
    outcomes.foldl (fun acc o =>
      let values := (afp.filter (fun pred => dhasKey pred o.name)).map
        (fun pred => dlookupD pred o.name 0)
      if values.isEmpty then acc
      else dictInsert acc o.name (rnd0 (values.sum / (values.length : ℚ)))) []

/-- Qualitative market-delta label; the magnitudes mirror the source's
`"%.1f"` formatting (one decimal, round half to even). -/
inductive MarketDelta where
  | bullish (magnitude : ℚ)
  | bearish (magnitude : ℚ)
  | aligned
  | na
deriving DecidableEq

/-- The AI-vs-market delta of `_calculate_statistics` (lines 748-764): when
the averages and the odds are both non-empty, the FIRST outcome in list
order is the "main" outcome, and its average is compared with
`market_prob * 100`, where `market_prob` is that outcome's baseline market
probability (0-1 per the data model).  The numeric `isinstance` guard of the
source is always satisfied in this numeric model. -/
def aiVsMarketDelta (avg : List (String × ℚ)) (odds : List (String × ℚ))
    (outcomes : List Outcome) : MarketDelta :=
  if avg.isEmpty || odds.isEmpty then .na
  else
    match outcomes with
    | [] => .na
    | o :: _ =>
        let ai := dlookupD avg o.name 0
        let mp := dlookupD odds o.name 0
        let delta := ai - mp * 100
        if 0 < delta then .bullish (rnd1 |delta|)
        else if delta < 0 then .bearish (rnd1 |delta|)
        else .aligned

/-- Label of a signed delta: bullish when positive, bearish when negative,
aligned when zero, magnitude to one decimal. -/
def deltaLabelOf (delta : ℚ) : MarketDelta :=
  if 0 < delta then .bullish (rnd1 |delta|)
  else if delta < 0 then .bearish (rnd1 |delta|)
  else .aligned

/-- Modelled from the claim's words: compare the debate's LEADING outcome --
the (first) entry of the average-prediction mapping with the highest
average -- against that outcome's baseline market probability. -/
def marketDeltaLeadingSpec (avg : List (String × ℚ))
    (odds : List (String × ℚ)) : MarketDelta :=
  match maxByVal avg with
  | none => .na
  | some mx => deltaLabelOf (mx.2 - dlookupD odds mx.1 0 * 100)

/-- Modelled from the amended claim's words: compare the FIRST-LISTED
outcome's average prediction against that outcome's baseline market
probability. -/
def marketDeltaFirstSpec (avg : List (String × ℚ))
    (odds : List (String × ℚ)) (outcomes : List Outcome) : MarketDelta :=
  match outcomes with
  | [] => .na
  | o :: _ =>
      deltaLabelOf (dlookupD avg o.name 0 - dlookupD odds o.name 0 * 100)

/-- C9 (amended): with non-empty averages and non-empty baseline odds, the
label computed by `_calculate_statistics` is exactly the
bullish/bearish/aligned classification of the FIRST-LISTED outcome's
average against that outcome's baseline market probability. -/
theorem c9_first_outcome_delta (avg odds : List (String × ℚ))
    (outcomes : List Outcome) (h1 : avg ≠ []) (h2 : odds ≠ []) :
    aiVsMarketDelta avg odds outcomes
      = marketDeltaFirstSpec avg odds outcomes := by
  obtain ⟨a, as, rfl⟩ := List.exists_cons_of_ne_nil h1
  obtain ⟨b, bs, rfl⟩ := List.exists_cons_of_ne_nil h2
  unfold aiVsMarketDelta marketDeltaFirstSpec deltaLabelOf
  cases outcomes with
  | nil => rfl
  | cons o rest => rfl

def outcomeA : Outcome :=
  { name := "A", volume := none, shares := none,
    price_change_24h := none, price := 1 }

def outcomeB : Outcome :=
  { name := "B", volume := none, shares := none,
    price_change_24h := none, price := 1 }

def outcomesC9 : List Outcome := [outcomeA, outcomeB]

def oddsC9 : List (String × ℚ) := [("A", 1/2), ("B", 1/2)]

def msgC9 : Message :=
  { round := 1, sequence := 1, model_id := "model-a",
    model_name := "Model A", message_type := "final", text := "t",
    predictions := [("A", 20), ("B", 80)],
    audio_url := none, audio_duration := none }

def avgC9 : List (String × ℚ) := [("A", 20), ("B", 80)]

theorem rnd0_twenty : rnd0 (20 : ℚ) = 20 := by
  unfold rnd0
  rw [roundHalfEven_of_lt_half (20 : ℚ) 20 (by norm_num) (by norm_num)]
  norm_num

theorem rnd0_eighty : rnd0 (80 : ℚ) = 80 := by
  unfold rnd0
  rw [roundHalfEven_of_lt_half (80 : ℚ) 80 (by norm_num) (by norm_num)]
  norm_num

theorem rnd1_thirty : rnd1 (30 : ℚ) = 30 := by
  unfold rnd1
  rw [show ((30 : ℚ) * 10) = 300 by norm_num,
    roundHalfEven_of_lt_half (300 : ℚ) 300 (by norm_num) (by norm_num)]
  norm_num

/-- C9 evaluation helper: the averages of the one-participant debate whose
final predictions are `A: 20, B: 80`. -/
theorem averagePrediction_c9 :
    averagePrediction (allFinalPredictions [msgC9] [modelA]) outcomesC9
      = avgC9 := by
  have hafp : allFinalPredictions [msgC9] [modelA]
      = [[("A", 20), ("B", 80)]] := by
    unfold allFinalPredictions msgC9 modelA
    simp
  rw [hafp]
  unfold averagePrediction outcomesC9 outcomeA outcomeB avgC9
  simp [dhasKey, dlookupD, dlookup, dictInsert, rnd0_twenty, rnd0_eighty]

/-- C9 counterexample: in a completed debate with one participant whose
final predictions are `A: 20, B: 80` and baseline odds of one half each, the
code's label compares outcome `A` (first in list order) and reports
"bearish by 30", while the claim's leading-outcome comparison (outcome `B`,
the highest average) yields "bullish by 30" -- so the label is not computed
from the leading outcome. -/
theorem c9_leading_outcome_counterexample :
    averagePrediction (allFinalPredictions [msgC9] [modelA]) outcomesC9 = avgC9
    ∧ aiVsMarketDelta avgC9 oddsC9 outcomesC9 = .bearish 30
    ∧ marketDeltaLeadingSpec avgC9 oddsC9 = .bullish 30
    ∧ aiVsMarketDelta avgC9 oddsC9 outcomesC9
        ≠ marketDeltaLeadingSpec avgC9 oddsC9 := by
  have hcode : aiVsMarketDelta avgC9 oddsC9 outcomesC9 = .bearish 30 := by
    unfold aiVsMarketDelta outcomesC9 outcomeA outcomeB avgC9 oddsC9
    rw [if_neg (by decide)]
    show (let ai := dlookupD [("A", 20), ("B", 80)] "A" 0
      let mp := dlookupD [("A", 1/2), ("B", 1/2)] "A" 0
      let delta := ai - mp * 100
      if 0 < delta then MarketDelta.bullish (rnd1 |delta|)
      else if delta < 0 then MarketDelta.bearish (rnd1 |delta|)
      else MarketDelta.aligned) = MarketDelta.bearish 30
    have ha : dlookupD [(("A" : String), (20 : ℚ)), ("B", 80)] "A" 0 = 20 := by
      simp [dlookupD, dlookup]
    have hb : dlookupD [(("A" : String), (1/2 : ℚ)), ("B", 1/2)] "A" 0
        = 1/2 := by
      simp [dlookupD, dlookup]
    simp only [ha, hb]
    rw [show (20 : ℚ) - 1/2 * 100 = -30 by norm_num]
    rw [if_neg (by norm_num), if_pos (by norm_num)]
    rw [show |(-30 : ℚ)| = 30 by rw [abs_of_neg (by norm_num)]; norm_num]
    rw [rnd1_thirty]
  have hlead : marketDeltaLeadingSpec avgC9 oddsC9 = .bullish 30 := by
    unfold marketDeltaLeadingSpec
    rw [show maxByVal avgC9 = some ("B", 80) from by decide]
    show deltaLabelOf ((80 : ℚ) - dlookupD oddsC9 "B" 0 * 100) = _
    have hb : dlookupD oddsC9 "B" 0 = 1/2 := by
      simp [oddsC9, dlookupD, dlookup]
    rw [hb, show (80 : ℚ) - 1/2 * 100 = 30 by norm_num]
    unfold deltaLabelOf
    rw [if_pos (by norm_num)]
    rw [show |(30 : ℚ)| = 30 by rw [abs_of_pos (by norm_num)]]
    rw [rnd1_thirty]
  refine ⟨averagePrediction_c9, hcode, hlead, ?_⟩
  rw [hcode, hlead]
  decide

/-- C9 witness: the amended first-outcome comparison at the counterexample's
concrete averages, odds, and outcomes. -/
theorem c9_first_outcome_delta_witness :
    aiVsMarketDelta avgC9 oddsC9 outcomesC9
      = marketDeltaFirstSpec avgC9 oddsC9 outcomesC9 :=
  c9_first_outcome_delta avgC9 oddsC9 outcomesC9 (by decide) (by decide)

/-!
## Claims C4, C5, C6: the summary coordinator
(`DebateService.get_debate_results`, lines 506-705)

The durable record of one debate is a `DbState`; one caller of
`get_debate_results` is modelled as a pure function threading that record.
Other processes may change the record while the caller sleeps between polls:
`CoordEnv.interfere k` is applied to the record during the `k`-th sleep.
The summary payload and the computed final-predictions payload are abstract
strings; the gemini collaborator either returns a summary (or null, as its
interface allows) or raises.  The embedding models the path for a debate
that exists in the database and is completed: the not-found and
not-completed early returns (lines 525-530 and 556-560) fall outside every
claim, and the persistence step's own exception handler (lines 684-685) is
log-only.
-/

structure DbState where
  final_summary : Option String
  final_predictions : Option String
  summary_generating : Bool
deriving DecidableEq

structure CoordEnv where
  interfere : ℕ → DbState → DbState
  gen : Except String (Option String)
  calcPreds : String

/-- Result of the polling loop of lines 554-599. -/
inductive WaitOutcome where
  | adopted (summary : String) (s : DbState) (waited : ℕ)
  | generated (summary : Option String) (s : DbState) (waited : ℕ)
  | genFailed (e : String) (s : DbState) (waited : ℕ)
  | timedOut (s : DbState) (waited : ℕ)
deriving DecidableEq

def WaitOutcome.waitedOf : WaitOutcome → ℕ
  | .adopted _ _ w => w
  | .generated _ _ w => w
  | .genFailed _ _ w => w
  | .timedOut _ w => w

/-- The polling loop (lines 550-599): `max_wait_seconds = 60`,
`wait_interval = 2`.  Each iteration re-reads the record; if a summary
appeared meanwhile, adopt it; else if nobody is generating, set the flag
(acquire) and call the collaborator -- breaking with the lock still held on
success (it is released by the later persistence step), and releasing the
lock before re-raising on error; else sleep two seconds (during which other
processes may write) and re-poll.  The `fuel` argument only bounds the
recursion: with `fuel = 31` the `waited < 60` guard always exits first,
since `waited` grows by 2 from 0 and 30 sleeps already reach 60. -/
def summaryWaitLoop (env : CoordEnv) :
    ℕ → ℕ → ℕ → DbState → WaitOutcome
  | 0, _, waited, s => .timedOut s waited
  | fuel + 1, k, waited, s =>
    if waited < 60 then
      match s.final_summary with
      | some σ => .adopted σ s waited
      | none =>
        if s.summary_generating then
          summaryWaitLoop env fuel (k + 1) (waited + 2) (env.interfere k s)
        else
          let s1 := { s with summary_generating := true }
          match env.gen with
          | .ok σ => .generated σ s1 waited
          | .error e =>
              .genFailed e { s1 with summary_generating := false } waited
    else .timedOut s waited

structure CoordResult where
  summary : Option String
  final_predictions : Option String
  db : DbState
  waited : ℕ
  raised : Option String
  lockAcquired : Bool
  forced : Bool
deriving DecidableEq

/-- The persistence step of lines 668-685: when the loaded snapshot lacks a
summary or final predictions, re-read the record, write each field only if
it is still null, and release the lock. -/
def persistResults (snapshot s : DbState) (summary : Option String)
    (preds : String) : DbState :=
  if snapshot.final_summary.isNone || snapshot.final_predictions.isNone then
    { final_summary :=
        if s.final_summary.isNone then summary else s.final_summary,
      final_predictions :=
        if s.final_predictions.isNone then some preds
        else s.final_predictions,
      summary_generating := false }
  else s

/-- `get_debate_results` for a completed debate: the cached-summary
short-cut (lines 543-546), otherwise the polling loop, the force-generation
fallback after the bounded wait (lines 601-614, no lock interaction), the
final-predictions computation with its own null-guarded cache (lines
616-656, its payload collapsed to `calcPreds`), and the persistence step.
In the adopted branch the debate snapshot is the reloaded record (line
565); in the generated and forced branches it is the original `s0`. -/
def get_debate_results (env : CoordEnv) (s0 : DbState) : CoordResult :=
  match s0.final_summary with
  | some σ =>
      let preds := s0.final_predictions.getD env.calcPreds
      { summary := some σ, final_predictions := some preds,
        db := persistResults s0 s0 (some σ) preds,
        waited := 0, raised := none, lockAcquired := false, forced := false }
  | none =>
      match summaryWaitLoop env 31 0 0 s0 with
      | .adopted σ s w =>
          let preds := s.final_predictions.getD env.calcPreds
          { summary := some σ, final_predictions := some preds,
            db := persistResults s s (some σ) preds,
            waited := w, raised := none, lockAcquired := false,
            forced := false }
      | .generated σopt s w =>
          let preds := s0.final_predictions.getD env.calcPreds
          { summary := σopt, final_predictions := some preds,
            db := persistResults s0 s σopt preds,
            waited := w, raised := none, lockAcquired := true,
            forced := false }
      | .genFailed e s w =>
          { summary := none, final_predictions := none, db := s,
            waited := w, raised := some e, lockAcquired := true,
            forced := false }
      | .timedOut s w =>
          match env.gen with
          | .ok σopt =>
              let preds := s0.final_predictions.getD env.calcPreds
              { summary := σopt, final_predictions := some preds,
                db := persistResults s0 s σopt preds,
                waited := w, raised := none, lockAcquired := false,
                forced := true }
          | .error e =>
              { summary := none, final_predictions := none, db := s,
                waited := w, raised := some e, lockAcquired := false,
                forced := true }

/-- The loop never waits past the 60-second bound: `waited` starts even and
grows by 2 only while strictly below 60. -/
theorem summaryWaitLoop_waited (env : CoordEnv) :
    ∀ (fuel k waited : ℕ) (s : DbState), waited % 2 = 0 → waited ≤ 60 →
      (summaryWaitLoop env fuel k waited s).waitedOf ≤ 60 := by
  intro fuel
  induction fuel with
  | zero => intro k waited s _ h2; exact h2
  | succ fuel ih =>
      intro k waited s h1 h2
      simp only [summaryWaitLoop]
      split
      · split
        · exact h2
        · split
          · exact ih (k + 1) (waited + 2) _ (by omega) (by omega)
          · split
            · exact h2
            · exact h2
      · exact h2

/-- An adopted summary really is the one stored in the observed record. -/
theorem summaryWaitLoop_adopted (env : CoordEnv) :
    ∀ (fuel k waited : ℕ) (s : DbState) (σ : String) (s' : DbState) (w : ℕ),
      summaryWaitLoop env fuel k waited s = .adopted σ s' w →
      s'.final_summary = some σ := by
  intro fuel
  induction fuel with
  | zero =>
      intro k waited s σ s' w h
      simp [summaryWaitLoop] at h
  | succ fuel ih =>
      intro k waited s σ s' w h
      simp only [summaryWaitLoop] at h
      split at h
      · split at h
        · next heq => cases h; exact heq
        · split at h
          · exact ih _ _ _ _ _ _ h
          · split at h
            · cases h
            · cases h
      · cases h

/-- A generated summary comes from the collaborator, on a record that still
lacked a summary, with the lock held. -/
theorem summaryWaitLoop_generated (env : CoordEnv) :
    ∀ (fuel k waited : ℕ) (s : DbState) (σopt : Option String)
      (s' : DbState) (w : ℕ),
      summaryWaitLoop env fuel k waited s = .generated σopt s' w →
      env.gen = .ok σopt ∧ s'.final_summary = none
        ∧ s'.summary_generating = true := by
  intro fuel
  induction fuel with
  | zero =>
      intro k waited s σopt s' w h
      simp [summaryWaitLoop] at h
  | succ fuel ih =>
      intro k waited s σopt s' w h
      simp only [summaryWaitLoop] at h
      split at h
      · split at h
        · cases h
        · next heq =>
            split at h
            · exact ih _ _ _ _ _ _ h
            · split at h
              · next hg => cases h; exact ⟨hg, heq, rfl⟩
              · cases h
      · cases h

/-- A generation failure releases the lock before the error propagates. -/
theorem summaryWaitLoop_genFailed (env : CoordEnv) :
    ∀ (fuel k waited : ℕ) (s : DbState) (e : String) (s' : DbState) (w : ℕ),
      summaryWaitLoop env fuel k waited s = .genFailed e s' w →
      env.gen = .error e ∧ s'.summary_generating = false := by
  intro fuel
  induction fuel with
  | zero =>
      intro k waited s e s' w h
      simp [summaryWaitLoop] at h
  | succ fuel ih =>
      intro k waited s e s' w h
      simp only [summaryWaitLoop] at h
      split at h
      · split at h
        · cases h
        · split at h
          · exact ih _ _ _ _ _ _ h
          · split at h
            · cases h
            · next hg => cases h; exact ⟨hg, rfl⟩
      · cases h

/-- What the persistence step leaves in the summary column. -/
theorem persistResults_final_summary (snapshot s : DbState)
    (summary : Option String) (preds : String) :
    (persistResults snapshot s summary preds).final_summary
      = if snapshot.final_summary.isNone || snapshot.final_predictions.isNone
        then (if s.final_summary.isNone then summary else s.final_summary)
        else s.final_summary := by
  unfold persistResults
  split <;> rfl

/-- What the persistence step leaves in the final-predictions column. -/
theorem persistResults_final_predictions (snapshot s : DbState)
    (summary : Option String) (preds : String) :
    (persistResults snapshot s summary preds).final_predictions
      = if snapshot.final_summary.isNone || snapshot.final_predictions.isNone
        then (if s.final_predictions.isNone then some preds
          else s.final_predictions)
        else s.final_predictions := by
  unfold persistResults
  split <;> rfl

/-- C4: for a completed debate with no cached summary, when the generation
collaborator succeeds, every caller of the coordinator waits at most the
60-second bound (polling in 2-second intervals), never propagates an error,
returns a produced summary, and leaves a non-null `final_summary` persisted
in the record -- the timeout path force-generates, ignoring the lock,
instead of hanging. -/
theorem c4_bounded_wait_and_force (env : CoordEnv) (s0 : DbState) (σ : String)
    (hgen : env.gen = Except.ok (some σ))
    (hnone : s0.final_summary = none) :
    (get_debate_results env s0).waited ≤ 60
    ∧ (get_debate_results env s0).raised = none
    ∧ (get_debate_results env s0).summary.isSome = true
    ∧ (get_debate_results env s0).db.final_summary.isSome = true := by
  have hw := summaryWaitLoop_waited env 31 0 0 s0 (by omega) (by omega)
  unfold get_debate_results
  rw [hnone]
  cases hloop : summaryWaitLoop env 31 0 0 s0 with
  | adopted σ' s w =>
      rw [hloop] at hw
      have hs := summaryWaitLoop_adopted env 31 0 0 s0 σ' s w hloop
      refine ⟨hw, rfl, rfl, ?_⟩
      show (persistResults s s (some σ')
        (s.final_predictions.getD env.calcPreds)).final_summary.isSome = true
      rw [persistResults_final_summary]
      split
      · rw [hs]
        simp
      · rw [hs]
        rfl
  | generated σopt s w =>
      rw [hloop] at hw
      obtain ⟨hg, hsn, _⟩ := summaryWaitLoop_generated env 31 0 0 s0 σopt s w hloop
      rw [hgen] at hg
      injection hg with hg2
      refine ⟨hw, rfl, ?_, ?_⟩
      · show σopt.isSome = true
        rw [← hg2]
        rfl
      · show (persistResults s0 s σopt
          (s0.final_predictions.getD env.calcPreds)).final_summary.isSome = true
        rw [persistResults_final_summary, hnone]
        simp only [Option.isNone_none, Bool.true_or, if_true]
        rw [hsn]
        simp only [Option.isNone_none, if_true]
        rw [← hg2]
        rfl
  | genFailed e s w =>
      obtain ⟨hg, _⟩ := summaryWaitLoop_genFailed env 31 0 0 s0 e s w hloop
      rw [hgen] at hg
      exact Except.noConfusion hg
  | timedOut s w =>
      rw [hloop] at hw
      rw [hgen]
      refine ⟨hw, rfl, rfl, ?_⟩
      show (persistResults s0 s (some σ)
        (s0.final_predictions.getD env.calcPreds)).final_summary.isSome = true
      rw [persistResults_final_summary, hnone]
      simp only [Option.isNone_none, Bool.true_or, if_true]
      cases hsf : s.final_summary
      · simp
      · simp

/-- C5: every coordinator call on a debate whose `final_summary` is already
set returns that cached value without acquiring the lock, and the cached
summary survives in the record; if the final predictions are also cached the
record is left entirely untouched, and if they are still null exactly that
one field is filled in.  Moreover -- for every snapshot, record, and payload
-- the persistence step never overwrites a non-null `final_summary` or
`final_predictions`: each field is written only while still null, so both
are set at most once. -/
theorem c5_write_once (env : CoordEnv) (s0 snapshot s : DbState)
    (σ : String) (summary : Option String) (preds : String)
    (hcached : s0.final_summary = some σ) :
    (get_debate_results env s0).summary = some σ
    ∧ (get_debate_results env s0).lockAcquired = false
    ∧ (get_debate_results env s0).db.final_summary = some σ
    ∧ (s0.final_predictions.isSome = true →
        (get_debate_results env s0).db = s0)
    ∧ (s0.final_predictions.isSome = false →
        (get_debate_results env s0).db.final_predictions
          = some env.calcPreds)
    ∧ (s.final_summary.isSome = true →
        (persistResults snapshot s summary preds).final_summary
          = s.final_summary)
    ∧ (s.final_predictions.isSome = true →
        (persistResults snapshot s summary preds).final_predictions
          = s.final_predictions) := by
  refine ⟨?_, ?_, ?_, ?_, ?_, ?_, ?_⟩
  · unfold get_debate_results
    rw [hcached]
  · unfold get_debate_results
    rw [hcached]
  · unfold get_debate_results
    rw [hcached]
    show (persistResults s0 s0 (some σ)
      (s0.final_predictions.getD env.calcPreds)).final_summary = some σ
    rw [persistResults_final_summary, hcached]
    simp
  · intro hp
    obtain ⟨p, hp'⟩ := Option.isSome_iff_exists.mp hp
    unfold get_debate_results
    rw [hcached]
    show persistResults s0 s0 (some σ) (s0.final_predictions.getD env.calcPreds)
      = s0
    unfold persistResults
    rw [if_neg (by rw [hcached, hp']; simp)]
  · intro hp
    cases hpn : s0.final_predictions with
    | some p => rw [hpn] at hp; simp at hp
    | none =>
        unfold get_debate_results
        rw [hcached]
        show (persistResults s0 s0 (some σ)
          (s0.final_predictions.getD env.calcPreds)).final_predictions
          = some env.calcPreds
        rw [persistResults_final_predictions, hpn]
        simp
  · intro hs2
    obtain ⟨σ2, h2⟩ := Option.isSome_iff_exists.mp hs2
    rw [persistResults_final_summary, h2]
    split <;> rfl
  · intro hp2
    obtain ⟨p2, h2⟩ := Option.isSome_iff_exists.mp hp2
    rw [persistResults_final_predictions, h2]
    split <;> rfl

/-- C6: whenever a coordinator call acquires the `summary_generating` lock
and the generation collaborator then raises, the error propagates to the
caller and the lock has been set back to false first -- a generation
failure never leaves the lock permanently held. -/
theorem c6_release_on_error (env : CoordEnv) (s0 : DbState) (e : String)
    (hgen : env.gen = Except.error e)
    (hlock : (get_debate_results env s0).lockAcquired = true) :
    (get_debate_results env s0).raised = some e
    ∧ (get_debate_results env s0).db.summary_generating = false := by
  unfold get_debate_results at hlock ⊢
  cases hs0 : s0.final_summary with
  | some σ =>
      rw [hs0] at hlock
      simp at hlock
  | none =>
      rw [hs0] at hlock
      cases hloop : summaryWaitLoop env 31 0 0 s0 with
      | adopted σ' s w =>
          rw [hloop] at hlock
          simp at hlock
      | generated σopt s w =>
          obtain ⟨hg, _, _⟩ :=
            summaryWaitLoop_generated env 31 0 0 s0 σopt s w hloop
          rw [hgen] at hg
          exact Except.noConfusion hg
      | genFailed e' s w =>
          obtain ⟨hg, hrel⟩ :=
            summaryWaitLoop_genFailed env 31 0 0 s0 e' s w hloop
          rw [hgen] at hg
          injection hg with hg2
          subst hg2
          exact ⟨rfl, hrel⟩
      | timedOut s w =>
          rw [hloop, hgen] at hlock
          simp at hlock

def noInterfere : ℕ → DbState → DbState := fun _ s => s

def coordEnvOk : CoordEnv :=
  { interfere := noInterfere, gen := .ok (some "consensus"),
    calcPreds := "preds" }

def coordEnvErr : CoordEnv :=
  { interfere := noInterfere, gen := .error "boom", calcPreds := "preds" }

def dbEmpty : DbState :=
  { final_summary := none, final_predictions := none,
    summary_generating := false }

def dbCached : DbState :=
  { final_summary := some "S", final_predictions := some "P",
    summary_generating := false }

def dbOther : DbState :=
  { final_summary := some "S2", final_predictions := some "P2",
    summary_generating := true }

/-- C4 witness at a concrete empty record with a succeeding generator. -/
theorem c4_bounded_wait_and_force_witness :
    (get_debate_results coordEnvOk dbEmpty).waited ≤ 60
    ∧ (get_debate_results coordEnvOk dbEmpty).raised = none
    ∧ (get_debate_results coordEnvOk dbEmpty).summary.isSome = true
    ∧ (get_debate_results coordEnvOk dbEmpty).db.final_summary.isSome
        = true :=
  c4_bounded_wait_and_force coordEnvOk dbEmpty "consensus" rfl rfl

/-- C5 witness at a concrete record with a cached summary. -/
theorem c5_write_once_witness :
    (get_debate_results coordEnvOk dbCached).summary = some "S"
    ∧ (get_debate_results coordEnvOk dbCached).lockAcquired = false
    ∧ (get_debate_results coordEnvOk dbCached).db.final_summary = some "S"
    ∧ (dbCached.final_predictions.isSome = true →
        (get_debate_results coordEnvOk dbCached).db = dbCached)
    ∧ (dbCached.final_predictions.isSome = false →
        (get_debate_results coordEnvOk dbCached).db.final_predictions
          = some coordEnvOk.calcPreds)
    ∧ (dbOther.final_summary.isSome = true →
        (persistResults dbEmpty dbOther none "x").final_summary
          = dbOther.final_summary)
    ∧ (dbOther.final_predictions.isSome = true →
        (persistResults dbEmpty dbOther none "x").final_predictions
          = dbOther.final_predictions) :=
  c5_write_once coordEnvOk dbCached dbEmpty dbOther "S" none "x" rfl

/-- C6 witness: a concrete caller that acquires the lock and whose
generation call raises. -/
theorem c6_release_on_error_witness :
    (get_debate_results coordEnvErr dbEmpty).raised = some "boom"
    ∧ (get_debate_results coordEnvErr dbEmpty).db.summary_generating
        = false :=
  c6_release_on_error coordEnvErr dbEmpty "boom" rfl (by decide)
